import Mathlib

/-!
# Verification of the chirality-semantic-framework core

Shallow embedding, in Lean 4, of the core of the `chirality-semantic-framework`
repository: the data model (`src/chirality/core/types.py`), the semantic
context (`src/chirality/core/context.py`), the resolution client
(`src/chirality/core/cell_resolver.py`) and the three-stage cell pipeline
(`src/chirality/core/operations.py`).

Conventions of the embedding:
* Python code that can raise is modelled in `Except String` (the error string
  is the exception message); code that additionally performs external
  resolution calls runs in the monad `M`, which threads an ordered log of the
  resolver calls made so far, so that "raises before any external call" is a
  statement about the log at the moment of the error.
* Python `list` indexing (including negative-index semantics) is modelled by
  `pyIndex`; attribute access `x.value` on a value that may be `None` is
  modelled by `pyAttrValue`.
* External collaborators (the OpenAI chat endpoint, `hashlib.sha256`,
  `json.loads`, `unicodedata.normalize("NFKC", ·)`) are parameters of the
  definitions that use them; everything written in the repository itself is
  embedded concretely.
* Python `float` temperature literals are embedded as exact rationals.
-/

set_option autoImplicit false

namespace Chirality

/-- Python list indexing `l[i]` for `i : int`: negative indices count from the
end; an index out of range raises `IndexError`. -/
def pyIndex {α : Type} (l : List α) (i : Int) : Except String α :=
  let n : Int := l.length
  let j : Int := if i < 0 then i + n else i
  if 0 ≤ j ∧ j < n then
    match l[j.toNat]? with
    | some x => Except.ok x
    | none => Except.error "IndexError: list index out of range"
  else Except.error "IndexError: list index out of range"

/-- Provenance / term values: the JSON-like values stored in a `Cell`'s
`provenance` dict and in a `SemanticContext`'s `terms` dict. -/
inductive PValue where
  | s (v : String)
  | list (v : List String)
  | b (v : Bool)
  deriving DecidableEq, Repr

/-- `types.Cell` (src/chirality/core/types.py): row, col, final value and the
ordered provenance mapping. -/
structure Cell where
  row : Int
  col : Int
  value : String
  provenance : List (String × PValue) := []
  deriving DecidableEq, Repr

instance : Inhabited Cell := ⟨⟨0, 0, "", []⟩⟩

/-- `types.Matrix` (src/chirality/core/types.py). -/
structure Matrix where
  name : String
  station : String
  row_labels : List String
  col_labels : List String
  cells : List (List Cell)
  deriving DecidableEq, Repr

namespace Matrix

/-- `Matrix.shape`: `(len(row_labels), len(col_labels))`. -/
def shape (m : Matrix) : Nat × Nat :=
  (m.row_labels.length, m.col_labels.length)

/-- `Matrix.get_cell` (types.py lines 62-66): guarded lookup, `None` when the
position is outside the stored `cells` grid.  The guard makes the two inner
`pyIndex` accesses safe, which is why the whole method never raises. -/
def get_cell (m : Matrix) (row col : Int) : Except String (Option Cell) :=
  if 0 ≤ row ∧ row < (m.cells.length : Int) then do
    let rowCells ← pyIndex m.cells row
    if 0 ≤ col ∧ col < (rowCells.length : Int) then do
      let c ← pyIndex rowCells col
      pure (some c)
    else pure none
  else pure none

/-- Spec-side safe accessor: the value stored at grid position `(r, c)`. -/
def valueAt (m : Matrix) (r c : Nat) : String :=
  ((m.cells.getD r default).getD c default).value

/-- Well-formedness from the spec's data-model section: the `cells` grid
agrees with the label axes. -/
def wf (m : Matrix) : Prop :=
  m.cells.length = m.row_labels.length ∧
    ∀ r ∈ m.cells, r.length = m.col_labels.length

instance (m : Matrix) : Decidable m.wf := by
  unfold wf; infer_instance

end Matrix

/-- Attribute access `c.value` where `c` may be `None` (Python raises
`AttributeError` on `None.value`). -/
def pyAttrValue (c : Option Cell) : Except String String :=
  match c with
  | some cell => Except.ok cell.value
  | none => Except.error "AttributeError: 'NoneType' object has no attribute 'value'"

/-! ## Resolution client: text normalization and hashing
    (src/chirality/core/cell_resolver.py) -/

/-- Python regex `\s` class (ASCII part) used by `re.sub(r"\s+", " ", s)` and
`str.strip()`. -/
def pyIsSpace (c : Char) : Bool :=
  c = ' ' || c = '\t' || c = '\n' || c = '\r' || c = '\x0b' || c = '\x0c'

/-- `re.sub(r"\s+", " ", s)`: every maximal whitespace run becomes a single
space.  The boolean records whether the previous character was whitespace. -/
def collapseWs : Bool → List Char → List Char
  | _, [] => []
  | prevSpace, c :: rest =>
    if pyIsSpace c then
      if prevSpace then collapseWs true rest
      else ' ' :: collapseWs true rest
    else c :: collapseWs false rest

/-- `str.strip()`: drop whitespace from both ends. -/
def stripWs (l : List Char) : List Char :=
  ((l.dropWhile pyIsSpace).reverse.dropWhile pyIsSpace).reverse

/-- `normalize_text` (cell_resolver.py lines 29-35): NFKC normalization
(external, passed as `nfkc`), whitespace collapse, strip. -/
def normalize_text (nfkc : String → String) (s : String) : String :=
  String.mk (stripWs (collapseWs false (nfkc s).toList))

/-- `CellResolver._prompt_hash` (cell_resolver.py lines 252-258): SHA-256
(external, passed as `sha`) over the normalized system prompt, a `"\n\n"`
separator, and the normalized user prompt.  Feeding the three byte chunks to
one hash equals hashing their concatenation. -/
def prompt_hash (sha : String → String) (nfkc : String → String)
    (system user : String) : String :=
  sha (normalize_text nfkc system ++ "\n\n" ++ normalize_text nfkc user)

/-! ## Resolution client: JSON extraction and schema validation -/

/-- Python `str.find(c)`: lowest index of `c`, or `-1`. -/
def pyFind (s : List Char) (c : Char) : Int :=
  match s with
  | [] => -1
  | x :: xs =>
    if x = c then 0
    else if pyFind xs c = -1 then -1 else pyFind xs c + 1

/-- Python `str.rfind(c)`: highest index of `c`, or `-1`. -/
def pyRfind (s : List Char) (c : Char) : Int :=
  match s with
  | [] => -1
  | x :: xs =>
    if pyRfind xs c = -1 then (if x = c then 0 else -1) else pyRfind xs c + 1

/-- `CellResolver._extract_json` (cell_resolver.py lines 268-279): slice from
the first `{` through the last `}`; empty input and missing/misordered braces
raise. -/
def extract_json (text : String) : Except String String :=
  if text = "" then Except.error "Empty model output"
  else
    let chars := text.toList
    let start := pyFind chars '\x7b'
    let e := pyRfind chars '\x7d'
    if start = -1 ∨ e = -1 ∨ e ≤ start then
      Except.error "No JSON object found in model output"
    else
      Except.ok (String.mk ((chars.drop start.toNat).take (e + 1 - start).toNat))

/-- JSON values, as produced by `json.loads`. -/
inductive JValue where
  | str (s : String)
  | num (n : Int)
  | bool (b : Bool)
  | null
  | arr (l : List JValue)
  | obj (l : List (String × JValue))

/-- Python dict key lookup on an object's fields. -/
def dictGet (l : List (String × JValue)) (k : String) : Option JValue :=
  (l.find? (fun kv => kv.1 == k)).map Prod.snd

/-- `isinstance(v, str)`. -/
def JValue.isStr : JValue → Bool
  | .str _ => true
  | _ => false

/-- `isinstance(v, list) and all(isinstance(x, str) for x in v)`. -/
def JValue.isListStr : JValue → Bool
  | .arr l => l.all JValue.isStr
  | _ => false

/-- `CellResolver._validate_obj` (cell_resolver.py lines 281-298). -/
def validate_obj (v : JValue) : Except String Unit :=
  match v with
  | .obj fields =>
    if (dictGet fields "text").isNone ∨ (dictGet fields "terms_used").isNone ∨
        (dictGet fields "warnings").isNone then
      Except.error "Missing required keys (text, terms_used, warnings)"
    else if ¬ ((dictGet fields "text").getD .null).isStr then
      Except.error "'text' must be string"
    else if ¬ ((dictGet fields "terms_used").getD .null).isListStr then
      Except.error "'terms_used' must be list[str]"
    else if ¬ ((dictGet fields "warnings").getD .null).isListStr then
      Except.error "'warnings' must be list[str]"
    else Except.ok ()
  | _ => Except.error "Output must be a JSON object"

/-! ## Resolution client: temperatures, retry loop, dispatch -/

/-- The temperature table from `CellResolver.__init__` (cell_resolver.py lines
68-75).  The element-wise key is embedded byte-for-byte as it appears in the
source file: the three characters U+00E2 U+0160 U+2122 (`"âŠ™"`), which is the
mojibake of `"⊙"` (U+2299), not `"⊙"` itself. -/
def temperatures : List (String × ℚ) :=
  [("multiply", 7/10), ("add", 1/2), ("interpret", 1/2),
   ("*", 7/10), ("+", 1/2), ("âŠ™", 7/10)]

/-- The lookup `self.temperatures.get(operation, 0.5)` (cell_resolver.py line
178). -/
def temperatureFor (operation : String) : ℚ :=
  ((temperatures.find? (fun kv => kv.1 == operation)).map Prod.snd).getD (1/2)

/-- One response of the external chat endpoint: the reported model id and the
message content (Python's `content or ""` applied). -/
structure SvcResp where
  model : String
  content : String

/-- The body of one `try:` block of `_call_openai` (cell_resolver.py lines
186-220, up to the successful return): external call, JSON extraction,
`json.loads` (external, passed as `jloads`), schema validation.  Any failing
step is the caught exception of that attempt. -/
def attemptOnce (svc : Nat → Except String SvcResp)
    (jloads : String → Except String JValue) (k : Nat) :
    Except String (String × JValue) := do
  let resp ← svc k
  let raw := resp.content
  let js ← extract_json raw
  let obj ← jloads js
  let _ ← validate_obj obj
  pure (resp.model, obj)

/-- Result of the retry loop: the final attempt outcome, the number of
attempts performed, and the backoff sleeps taken, in order. -/
structure LoopOut (α : Type) where
  result : Except String α
  attemptsMade : Nat
  sleeps : List ℚ

/-- The `while attempt <= self.max_retries` loop of `_call_openai`
(cell_resolver.py lines 185-230).  `k` is the current attempt index and
`fuel` the number of attempts still allowed (`max_retries + 1` at entry).
A failed attempt with attempts remaining sleeps `base_delay * 2 ^ k` and
continues with attempt `k + 1`. -/
def callLoop {α : Type} (att : Nat → Except String α) (base_delay : ℚ) :
    Nat → Nat → LoopOut α
  | _, 0 => ⟨Except.error "loop not entered", 0, []⟩
  | k, fuel + 1 =>
    match att k with
    | .ok a => ⟨Except.ok a, 1, []⟩
    | .error e =>
      if fuel = 0 then ⟨Except.error e, 1, []⟩
      else
        let rest := callLoop att base_delay (k + 1) fuel
        ⟨rest.result, rest.attemptsMade + 1, base_delay * 2 ^ k :: rest.sleeps⟩

/-- The static configuration of a `CellResolver` relevant to `_call_openai`:
model name, retry budget and backoff base (cell_resolver.py lines 64, 78-79;
defaults `max_retries = 3`, `base_delay = 0.4`). -/
structure CallConfig where
  model : String
  max_retries : Nat
  base_delay : ℚ

/-- The default configuration from `CellResolver.__init__`. -/
def defaultConfig : CallConfig := ⟨"gpt-4o", 3, 2/5⟩

/-- The metadata record returned by `_call_openai` (the claim-relevant
fields of the success dict, lines 207-218, and of the error dict, lines
238-247). -/
structure Meta where
  modelId : String
  promptHash : String
  attempts : Nat
  phase : String
  temperature : Option ℚ := none
  operation : Option String := none
  error : Option String := none

/-- `CellResolver._call_openai` (cell_resolver.py lines 165-248).  Returns
the `(response, metadata)` pair together with the ordered list of backoff
sleeps taken (Python performs those via `time.sleep`).  The function is total:
exhausted retries produce the synthetic error response, never an exception. -/
def call_openai (cfg : CallConfig) (sha nfkc : String → String)
    (svc : Nat → Except String SvcResp) (jloads : String → Except String JValue)
    (system_prompt user_prompt : String) (operation : String) :
    (JValue × Meta) × List ℚ :=
  let temperature := temperatureFor operation
  let prompt_hash_val := prompt_hash sha nfkc system_prompt user_prompt
  let out := callLoop (attemptOnce svc jloads) cfg.base_delay 0 (cfg.max_retries + 1)
  match out.result with
  | .ok (respModel, obj) =>
    ((obj,
      { modelId := respModel, promptHash := prompt_hash_val,
        attempts := out.attemptsMade, phase := operation,
        temperature := some temperature }), out.sleeps)
  | .error e =>
    ((JValue.obj
        [("text", .str ("ERROR: Failed to process " ++ operation)),
         ("terms_used", .arr []),
         ("warnings", .arr [.str ("openai_failure: " ++ e)])],
      { modelId := cfg.model, promptHash := prompt_hash_val,
        attempts := out.attemptsMade, phase := "error",
        operation := some operation, error := some e }), out.sleeps)

/-! ## Semantic context (src/chirality/core/context.py) -/

/-- `context.SemanticContext`: the value object carried into every resolution
call. -/
structure SemanticContext where
  station_context : String
  valley_summary : String
  row_label : String
  col_label : String
  operation_type : String
  terms : List (String × PValue)
  matrix : Option String := none
  i : Option Int := none
  j : Option Int := none
  operation_instructions : Option String := none
  system_frame : Option String := none
  deriving DecidableEq, Repr

/-- `SemanticContext.__post_init__` (context.py lines 49-58): construction
validates, in order, that `station_context`, `valley_summary`,
`operation_type` and `terms` are non-empty and raises `ValueError`
otherwise. -/
def mkSemanticContext (station valley row col op : String)
    (terms : List (String × PValue)) (matrix : Option String)
    (ti tj : Option Int) : Except String SemanticContext :=
  if station = "" then Except.error "station_context is required"
  else if valley = "" then Except.error "valley_summary is required"
  else if op = "" then Except.error "operation_type is required"
  else if terms = [] then Except.error "terms dictionary is required"
  else Except.ok
    { station_context := station, valley_summary := valley, row_label := row,
      col_label := col, operation_type := op, terms := terms,
      matrix := matrix, i := ti, j := tj }

/-! ## The pipeline monad: exceptions plus a log of external resolver calls -/

/-- One external resolution call, with its payload argument. -/
inductive RCall where
  | resolve (pair : String)
  | lens (content : String)
  deriving DecidableEq, Repr

/-- The pipeline monad: Python exceptions (`Except String`) threaded over the
ordered log of external resolver calls made so far.  The log survives an
exception, so "raises before any external call" is expressible. -/
def M (α : Type) : Type := List RCall → Except String α × List RCall

instance : Monad M where
  pure a := fun s => (Except.ok a, s)
  bind x f := fun s =>
    match x s with
    | (.ok a, s') => f a s'
    | (.error e, s') => (Except.error e, s')

/-- Lift a possibly-raising pure step into the pipeline monad. -/
def M.liftE {α : Type} (x : Except String α) : M α := fun s => (x, s)

/-- The resolver capability interface (spec §9: `resolveSemanticPair` /
`applyOntologicalLens`); the production `CellResolver` and the test mocks both
satisfy it, and both are total — 4.1's dispatch never raises. -/
structure Resolver where
  resolve_semantic_pair : String → SemanticContext → String
  apply_ontological_lens : String → SemanticContext → String

/-- `resolver.resolve_semantic_pair(pair, ctx)`: an external call, logged. -/
def callResolve (R : Resolver) (pair : String) (ctx : SemanticContext) : M String :=
  fun s => (Except.ok (R.resolve_semantic_pair pair ctx), s ++ [RCall.resolve pair])

/-- `resolver.apply_ontological_lens(content, ctx)`: an external call, logged. -/
def callLens (R : Resolver) (content : String) (ctx : SemanticContext) : M String :=
  fun s => (Except.ok (R.apply_ontological_lens content ctx), s ++ [RCall.lens content])

/-- Run a pipeline computation from an empty call log. -/
def M.run {α : Type} (x : M α) : Except String α × List RCall := x []

/-! ## Cell pipeline (src/chirality/core/operations.py) -/

/-- Stage 1 of `compute_cell_C` (operations.py lines 47-52): the `for k in
range(A.shape[1])` loop building the mechanical products
`f"{a_cell.value} * {b_cell.value}"`; purely local, no external call. -/
def stage1C (A B : Matrix) (i j : Int) : List Nat → Except String (List String)
  | [] => Except.ok []
  | k :: ks => do
    let a_cell ← A.get_cell i (k : Int)
    let b_cell ← B.get_cell (k : Int) j
    let av ← pyAttrValue a_cell
    let bv ← pyAttrValue b_cell
    let rest ← stage1C A B i j ks
    pure ((av ++ " * " ++ bv) :: rest)

/-- Stage 2 of `compute_cell_C` (operations.py lines 79-106): one
`SemanticContext` construction and one `resolve_semantic_pair` call per
product, in index order. -/
def stage2C (A B : Matrix) (i j : Int) (R : Resolver) (vs : String) :
    List String → M (List String)
  | [] => pure []
  | p :: ps => do
    let rl ← M.liftE (pyIndex A.row_labels i)
    let cl ← M.liftE (pyIndex B.col_labels j)
    let ctx ← M.liftE (mkSemanticContext "Requirements" vs rl cl "*"
      [("pair", .s p)] (some "C") (some i) (some j))
    let concept ← callResolve R p ctx
    let rest ← stage2C A B i j R vs ps
    pure (concept :: rest)

/-- `compute_cell_C` (operations.py lines 23-148): the full three-stage
pipeline for `C[i,j]`.  The trace sink is fire-and-forget and does not touch
the returned cell beyond the `traced` flag, but when tracing is on the
stage-1 trace block constructs a `SemanticContext` (which can raise), so that
construction is kept. -/
def compute_cell_C (i j : Int) (A B : Matrix) (R : Resolver)
    (valley_summary : String) (tracer : Bool) : M Cell := do
  let raw_products ← M.liftE (stage1C A B i j (List.range A.shape.2))
  if tracer then
    let rl ← M.liftE (pyIndex A.row_labels i)
    let cl ← M.liftE (pyIndex B.col_labels j)
    let _ ← M.liftE (mkSemanticContext "Requirements" valley_summary rl cl
      "combinatorial" [("products", .list raw_products)] (some "C") (some i) (some j))
    pure ()
  let resolved_concepts ← stage2C A B i j R valley_summary raw_products
  let combined := String.intercalate ", " resolved_concepts
  let rl ← M.liftE (pyIndex A.row_labels i)
  let cl ← M.liftE (pyIndex B.col_labels j)
  let ctx3 ← M.liftE (mkSemanticContext "Requirements" valley_summary rl cl
    "interpret" [("content", .s combined)] (some "C") (some i) (some j))
  let final_meaning ← callLens R combined ctx3
  let rl2 ← M.liftE (pyIndex A.row_labels i)
  let cl2 ← M.liftE (pyIndex B.col_labels j)
  pure
    { row := i, col := j, value := final_meaning,
      provenance :=
        [("stage_1_products", .list raw_products),
         ("stage_2_resolved", .list resolved_concepts),
         ("stage_3_lensed", .s final_meaning),
         ("operation", .s "compute_C"),
         ("coordinates", .s ("(" ++ rl2 ++ ", " ++ cl2 ++ ")")),
         ("traced", .b tracer)] }

/-- `compute_cell_F` (operations.py lines 151-239): element-wise variant. -/
def compute_cell_F (i j : Int) (J C : Matrix) (R : Resolver)
    (valley_summary : String) (tracer : Bool) : M Cell := do
  let j_cell ← M.liftE (J.get_cell i j)
  let c_cell ← M.liftE (C.get_cell i j)
  let jv ← M.liftE (pyAttrValue j_cell)
  let cv ← M.liftE (pyAttrValue c_cell)
  let element_pair := jv ++ " * " ++ cv
  let rl ← M.liftE (pyIndex J.row_labels i)
  let cl ← M.liftE (pyIndex J.col_labels j)
  let ctx1 ← M.liftE (mkSemanticContext "Objectives" valley_summary rl cl "*"
    [("pair", .s element_pair)] (some "F") (some i) (some j))
  let resolved_concept ← callResolve R element_pair ctx1
  let rl2 ← M.liftE (pyIndex J.row_labels i)
  let cl2 ← M.liftE (pyIndex J.col_labels j)
  let ctx2 ← M.liftE (mkSemanticContext "Objectives" valley_summary rl2 cl2
    "interpret" [("content", .s resolved_concept)] (some "F") (some i) (some j))
  let final_meaning ← callLens R resolved_concept ctx2
  let rl3 ← M.liftE (pyIndex J.row_labels i)
  let cl3 ← M.liftE (pyIndex J.col_labels j)
  pure
    { row := i, col := j, value := final_meaning,
      provenance :=
        [("stage_1_element_wise", .s element_pair),
         ("stage_2_resolved", .s resolved_concept),
         ("stage_3_lensed", .s final_meaning),
         ("operation", .s "compute_F"),
         ("coordinates", .s ("(" ++ rl3 ++ ", " ++ cl3 ++ ")")),
         ("traced", .b tracer)] }

/-- `synthesize_cell_D` (operations.py lines 242-329): synthesis variant. -/
def synthesize_cell_D (i j : Int) (A F : Matrix) (problem : String)
    (R : Resolver) (valley_summary : String) (tracer : Bool) : M Cell := do
  let a_cell ← M.liftE (A.get_cell i j)
  let f_cell ← M.liftE (F.get_cell i j)
  let av ← M.liftE (pyAttrValue a_cell)
  let fv ← M.liftE (pyAttrValue f_cell)
  let synthesis_statement :=
    av ++ " applied to frame the problem of " ++ problem ++ " and " ++ fv ++
      " to resolve the problem"
  if tracer then
    let rl ← M.liftE (pyIndex A.row_labels i)
    let cl ← M.liftE (pyIndex A.col_labels j)
    let _ ← M.liftE (mkSemanticContext "Objectives" valley_summary rl cl
      "synthesis" [("formula", .s synthesis_statement), ("problem", .s problem)]
      (some "D") (some i) (some j))
    pure ()
  let rl2 ← M.liftE (pyIndex A.row_labels i)
  let cl2 ← M.liftE (pyIndex A.col_labels j)
  let ctx2 ← M.liftE (mkSemanticContext "Objectives" valley_summary rl2 cl2
    "interpret" [("content", .s synthesis_statement), ("problem", .s problem)]
    (some "D") (some i) (some j))
  let final_meaning ← callLens R synthesis_statement ctx2
  let rl3 ← M.liftE (pyIndex A.row_labels i)
  let cl3 ← M.liftE (pyIndex A.col_labels j)
  pure
    { row := i, col := j, value := final_meaning,
      provenance :=
        [("stage_1_synthesis", .s synthesis_statement),
         ("stage_2_lensed", .s final_meaning),
         ("operation", .s "synthesize_D"),
         ("problem", .s problem),
         ("coordinates", .s ("(" ++ rl3 ++ ", " ++ cl3 ++ ")")),
         ("traced", .b tracer)] }

/-- The inner `for j in range(4)` loop of `compute_matrix_C`. -/
def matrixRowC (A B : Matrix) (R : Resolver) (vs : String) (tracer : Bool)
    (i : Nat) : List Nat → M (List Cell)
  | [] => pure []
  | jj :: js => do
    let c ← compute_cell_C (i : Int) (jj : Int) A B R vs tracer
    let rest ← matrixRowC A B R vs tracer i js
    pure (c :: rest)

/-- The outer `for i in range(3)` loop of `compute_matrix_C`. -/
def matrixRowsC (A B : Matrix) (R : Resolver) (vs : String) (tracer : Bool) :
    List Nat → M (List (List Cell))
  | [] => pure []
  | i :: is' => do
    let row ← matrixRowC A B R vs tracer i (List.range 4)
    let rest ← matrixRowsC A B R vs tracer is'
    pure (row :: rest)

/-- `compute_matrix_C` (operations.py lines 332-354): a fixed 3×4 iteration of
`compute_cell_C`, then a Matrix with A's row labels and B's column labels. -/
def compute_matrix_C (A B : Matrix) (R : Resolver) (vs : String)
    (tracer : Bool) : M Matrix := do
  let cells ← matrixRowsC A B R vs tracer (List.range 3)
  pure
    { name := "C", station := "Requirements", row_labels := A.row_labels,
      col_labels := B.col_labels, cells := cells }

/-! ## Basic reduction lemmas -/

theorem ebind_ok {α β : Type} (a : α) (f : α → Except String β) :
    (Except.ok a >>= f) = f a := rfl

theorem ebind_err {α β : Type} (e : String) (f : α → Except String β) :
    ((Except.error e : Except String α) >>= f) = Except.error e := rfl

theorem mbind_ok {α β : Type} (x : M α) (f : α → M β) (s s' : List RCall)
    (a : α) (h : x s = (Except.ok a, s')) : (x >>= f) s = f a s' := by
  rw [show (x >>= f) s =
      (match x s with
        | (.ok a, s') => f a s'
        | (.error e, s') => (Except.error e, s')) from rfl, h]

theorem mbind_err {α β : Type} (x : M α) (f : α → M β) (s s' : List RCall)
    (e : String) (h : x s = (Except.error e, s')) :
    (x >>= f) s = (Except.error e, s') := by
  rw [show (x >>= f) s =
      (match x s with
        | (.ok a, s') => f a s'
        | (.error e, s') => (Except.error e, s')) from rfl, h]

theorem liftE_apply {α : Type} (x : Except String α) (s : List RCall) :
    (M.liftE x) s = (x, s) := rfl

theorem mpure_apply {α : Type} (a : α) (s : List RCall) :
    (pure a : M α) s = (Except.ok a, s) := rfl

theorem callResolve_apply (R : Resolver) (p : String) (ctx : SemanticContext)
    (s : List RCall) :
    callResolve R p ctx s = (Except.ok (R.resolve_semantic_pair p ctx), s ++ [RCall.resolve p]) := rfl

theorem callLens_apply (R : Resolver) (c : String) (ctx : SemanticContext)
    (s : List RCall) :
    callLens R c ctx s = (Except.ok (R.apply_ontological_lens c ctx), s ++ [RCall.lens c]) := rfl

theorem pyIndex_pos {α : Type} [Inhabited α] (l : List α) (i : Int)
    (h0 : 0 ≤ i) (h1 : i < (l.length : Int)) :
    pyIndex l i = Except.ok (l.getD i.toNat default) := by
  have hneg : ¬ i < 0 := by omega
  have hlt : i.toNat < l.length := by omega
  simp only [pyIndex, if_neg hneg]
  rw [if_pos ⟨h0, h1⟩, List.getElem?_eq_getElem hlt, List.getD_eq_getElem l default hlt]

theorem mkSemanticContext_ok (station valley row col op : String)
    (terms : List (String × PValue)) (matrix : Option String) (ti tj : Option Int)
    (hs : station ≠ "") (hv : valley ≠ "") (ho : op ≠ "") (ht : terms ≠ []) :
    mkSemanticContext station valley row col op terms matrix ti tj =
      Except.ok
        { station_context := station, valley_summary := valley, row_label := row,
          col_label := col, operation_type := op, terms := terms,
          matrix := matrix, i := ti, j := tj } := by
  simp only [mkSemanticContext, if_neg hs, if_neg hv, if_neg ho, if_neg ht]

/-- Full characterization of `Matrix.get_cell`: it always returns (never
raises), with the stored cell exactly on in-range positions. -/
theorem get_cell_eq (m : Matrix) (row col : Int) :
    m.get_cell row col = Except.ok (
      if 0 ≤ row ∧ row < (m.cells.length : Int) ∧ 0 ≤ col ∧
          col < (((m.cells.getD row.toNat default)).length : Int) then
        some ((m.cells.getD row.toNat default).getD col.toNat default)
      else none) := by
  unfold Matrix.get_cell
  by_cases h1 : 0 ≤ row ∧ row < (m.cells.length : Int)
  · rw [if_pos h1, pyIndex_pos m.cells row h1.1 h1.2, ebind_ok]
    by_cases h2 : 0 ≤ col ∧ col < ((m.cells.getD row.toNat default).length : Int)
    · rw [if_pos h2, pyIndex_pos _ col h2.1 h2.2, ebind_ok,
        if_pos ⟨h1.1, h1.2, h2.1, h2.2⟩]
      rfl
    · rw [if_neg h2, if_neg (by tauto)]
      rfl
  · rw [if_neg h1, if_neg (by tauto)]
    rfl

/-- C10: `Matrix.get_cell(row, col)` never raises for any pair of integers:
it returns the stored cell when `0 <= row < len(m.cells)` and
`0 <= col < len(m.cells[row])`, and returns `None` for every other pair,
including negative indices. -/
theorem get_cell_never_raises (m : Matrix) (row col : Int) :
    m.get_cell row col = Except.ok (
      if 0 ≤ row ∧ row < (m.cells.length : Int) ∧ 0 ≤ col ∧
          col < (((m.cells.getD row.toNat default)).length : Int) then
        some ((m.cells.getD row.toNat default).getD col.toNat default)
      else none) :=
  get_cell_eq m row col

/-- C9 (code bug): the temperature table keys the element-wise alias by the
mojibake three-character string U+00E2 U+0160 U+2122 (`"âŠ™"`), not by `"⊙"`
(U+2299), so the lookup used by dispatch gives the element-wise alias `"⊙"`
the default temperature 1/2 instead of the multiplication temperature 7/10,
while the mojibake key — used nowhere else in the repository — gets 7/10.
The straight aliases `"*"`/`"multiply"` and `"+"`/`"add"` do agree, and an
unknown kind (such as the default `"semantic"`) falls back to 1/2. -/
theorem temperature_table_mojibake :
    temperatureFor "⊙" = 1/2 ∧
    temperatureFor "âŠ™" = 7/10 ∧
    temperatureFor "*" = temperatureFor "multiply" ∧
    temperatureFor "*" = 7/10 ∧
    temperatureFor "+" = temperatureFor "add" ∧
    temperatureFor "+" = 1/2 ∧
    temperatureFor "semantic" = 1/2 := by
  refine ⟨?_, ?_, ?_, ?_, ?_, ?_, ?_⟩ <;>
    simp [temperatureFor, temperatures, List.find?]

/-! ## Properties of `pyFind` / `pyRfind` (Python `str.find` / `str.rfind`) -/

theorem pyFind_ge (s : List Char) (c : Char) : -1 ≤ pyFind s c := by
  induction s with
  | nil => simp [pyFind]
  | cons x xs ih =>
    simp only [pyFind]
    by_cases hx : x = c
    · simp [hx]
    · rw [if_neg hx]
      by_cases hr : pyFind xs c = -1
      · simp [hr]
      · rw [if_neg hr]; omega

theorem pyFind_neg_iff (s : List Char) (c : Char) : pyFind s c = -1 ↔ c ∉ s := by
  induction s with
  | nil => simp [pyFind]
  | cons x xs ih =>
    simp only [pyFind]
    by_cases hx : x = c
    · subst hx; simp
    · rw [if_neg hx]
      by_cases hr : pyFind xs c = -1
      · rw [if_pos hr]
        simp only [List.mem_cons, not_or]
        exact ⟨fun _ => ⟨fun h => hx h.symm, ih.mp hr⟩, fun _ => trivial⟩
      · rw [if_neg hr]
        have hge := pyFind_ge xs c
        simp only [List.mem_cons, not_or]
        constructor
        · intro h; omega
        · rintro ⟨-, h2⟩; exact absurd (ih.mpr h2) hr

theorem pyFind_nonneg_iff (s : List Char) (c : Char) : 0 ≤ pyFind s c ↔ c ∈ s := by
  have h1 := pyFind_ge s c
  constructor
  · intro h
    by_contra hmem
    have := (pyFind_neg_iff s c).mpr hmem
    omega
  · intro h
    have : pyFind s c ≠ -1 := fun he => (pyFind_neg_iff s c).mp he h
    omega

theorem pyFind_getElem (s : List Char) (c : Char) (h : c ∈ s) :
    s[(pyFind s c).toNat]? = some c := by
  induction s with
  | nil => cases h
  | cons x xs ih =>
    simp only [pyFind]
    by_cases hx : x = c
    · subst hx; simp
    · rw [if_neg hx]
      have hmem : c ∈ xs := by
        rcases List.mem_cons.mp h with h1 | h1
        · exact absurd h1.symm hx
        · exact h1
      have hr : ¬ pyFind xs c = -1 := fun he => (pyFind_neg_iff xs c).mp he hmem
      have hge : 0 ≤ pyFind xs c := (pyFind_nonneg_iff xs c).mpr hmem
      rw [if_neg hr, show (pyFind xs c + 1).toNat = (pyFind xs c).toNat + 1 by omega,
        List.getElem?_cons_succ]
      exact ih hmem

theorem pyFind_not_mem_take (s : List Char) (c : Char) :
    c ∉ s.take (pyFind s c).toNat := by
  induction s with
  | nil => simp
  | cons x xs ih =>
    simp only [pyFind]
    by_cases hx : x = c
    · rw [if_pos hx]; simp
    · rw [if_neg hx]
      by_cases hr : pyFind xs c = -1
      · rw [if_pos hr]; simp
      · rw [if_neg hr]
        have hge := pyFind_ge xs c
        rw [show (pyFind xs c + 1).toNat = (pyFind xs c).toNat + 1 by omega,
          List.take_succ_cons]
        simp only [List.mem_cons, not_or]
        exact ⟨fun h => hx h.symm, ih⟩

theorem pyRfind_ge (s : List Char) (c : Char) : -1 ≤ pyRfind s c := by
  induction s with
  | nil => simp [pyRfind]
  | cons x xs ih =>
    simp only [pyRfind]
    by_cases hr : pyRfind xs c = -1
    · rw [if_pos hr]
      by_cases hx : x = c <;> simp [hx]
    · rw [if_neg hr]; omega

theorem pyRfind_neg_iff (s : List Char) (c : Char) : pyRfind s c = -1 ↔ c ∉ s := by
  induction s with
  | nil => simp [pyRfind]
  | cons x xs ih =>
    simp only [pyRfind]
    by_cases hr : pyRfind xs c = -1
    · have hxs : c ∉ xs := ih.mp hr
      rw [if_pos hr]
      by_cases hx : x = c
      · subst hx; simp
      · rw [if_neg hx]
        simp only [List.mem_cons, not_or]
        exact ⟨fun _ => ⟨fun h => hx h.symm, hxs⟩, fun _ => trivial⟩
    · have hge := pyRfind_ge xs c
      have hmem : c ∈ xs := by
        by_contra hh; exact hr (ih.mpr hh)
      rw [if_neg hr]
      simp only [List.mem_cons, not_or]
      constructor
      · intro h; omega
      · rintro ⟨-, h2⟩; exact absurd hmem h2

theorem pyRfind_nonneg_iff (s : List Char) (c : Char) : 0 ≤ pyRfind s c ↔ c ∈ s := by
  have h1 := pyRfind_ge s c
  constructor
  · intro h
    by_contra hmem
    have := (pyRfind_neg_iff s c).mpr hmem
    omega
  · intro h
    have : pyRfind s c ≠ -1 := fun he => (pyRfind_neg_iff s c).mp he h
    omega

theorem pyRfind_getElem (s : List Char) (c : Char) (h : c ∈ s) :
    s[(pyRfind s c).toNat]? = some c := by
  induction s with
  | nil => cases h
  | cons x xs ih =>
    simp only [pyRfind]
    by_cases hr : pyRfind xs c = -1
    · have hxs : c ∉ xs := (pyRfind_neg_iff xs c).mp hr
      have hx : x = c := by
        rcases List.mem_cons.mp h with h1 | h1
        · exact h1.symm
        · exact absurd h1 hxs
      rw [if_pos hr, if_pos hx]
      subst hx; simp
    · have hmem : c ∈ xs := by
        by_contra hh; exact hr ((pyRfind_neg_iff xs c).mpr hh)
      have hge : 0 ≤ pyRfind xs c := (pyRfind_nonneg_iff xs c).mpr hmem
      rw [if_neg hr, show (pyRfind xs c + 1).toNat = (pyRfind xs c).toNat + 1 by omega,
        List.getElem?_cons_succ]
      exact ih hmem

theorem pyRfind_not_mem_drop (s : List Char) (c : Char) :
    c ∉ s.drop ((pyRfind s c).toNat + 1) := by
  induction s with
  | nil => simp
  | cons x xs ih =>
    simp only [pyRfind]
    by_cases hr : pyRfind xs c = -1
    · have hxs : c ∉ xs := (pyRfind_neg_iff xs c).mp hr
      rw [if_pos hr]
      by_cases hx : x = c
      · rw [if_pos hx]
        simpa using hxs
      · rw [if_neg hx]
        simpa using hxs
    · have hge := pyRfind_ge xs c
      rw [if_neg hr,
        show (pyRfind xs c + 1).toNat + 1 = ((pyRfind xs c).toNat + 1) + 1 by omega,
        List.drop_succ_cons]
      exact ih

theorem pyRfind_lt_length (s : List Char) (c : Char) (h : c ∈ s) :
    (pyRfind s c).toNat < s.length :=
  (List.getElem?_eq_some.mp (pyRfind_getElem s c h)).1

/-- `_extract_json` on non-empty input, with the branch condition exposed. -/
theorem extract_json_eq (text : String) (h : text ≠ "") :
    extract_json text =
      (if pyFind text.toList '\x7b' = -1 ∨ pyRfind text.toList '\x7d' = -1 ∨
          pyRfind text.toList '\x7d' ≤ pyFind text.toList '\x7b' then
        Except.error "No JSON object found in model output"
      else
        Except.ok (String.mk ((text.toList.drop (pyFind text.toList '\x7b').toNat).take
          ((pyRfind text.toList '\x7d' + 1 - pyFind text.toList '\x7b').toNat)))) := by
  simp only [extract_json, if_neg h]

/-- C8 counterexample: on the empty input, `_extract_json` raises
`ValueError("Empty model output")` (cell_resolver.py line 271), not the
documented `"No JSON object found in model output"` error that the claim
asserts for empty input. -/
theorem extract_json_empty_counterexample :
    extract_json "" = Except.error "Empty model output" ∧
    extract_json "" ≠ Except.error "No JSON object found in model output" := by
  constructor
  · rfl
  · intro h
    have : "Empty model output" = "No JSON object found in model output" :=
      Except.error.inj (by rw [← h]; rfl)
    exact absurd this (by decide)

/-- C8 (amended): `_extract_json` raises `"Empty model output"` on empty
input; on non-empty input it raises the documented `"No JSON object found"`
error exactly when the input lacks `'\x7b'` or `'\x7d'` or has its last
`'\x7d'` at or before its first `'\x7b'`; otherwise it returns the substring
of its input from the first `'\x7b'` through the last `'\x7d'` inclusive
(the returned piece starts with `'\x7b'`, ends with `'\x7d'`, no `'\x7b'`
occurs before it and no `'\x7d'` occurs after it). -/
theorem extract_json_spec (text : String) :
    (text = "" → extract_json text = Except.error "Empty model output") ∧
    (text ≠ "" →
      (extract_json text = Except.error "No JSON object found in model output" ↔
        '\x7b' ∉ text.toList ∨ '\x7d' ∉ text.toList ∨
          pyRfind text.toList '\x7d' ≤ pyFind text.toList '\x7b')) ∧
    (text ≠ "" → '\x7b' ∈ text.toList → '\x7d' ∈ text.toList →
      pyFind text.toList '\x7b' < pyRfind text.toList '\x7d' →
      ∃ pre mid post, text.toList = pre ++ mid ++ post ∧
        extract_json text = Except.ok (String.mk mid) ∧
        mid.head? = some '\x7b' ∧ mid.getLast? = some '\x7d' ∧
        '\x7b' ∉ pre ∧ '\x7d' ∉ post) := by
  refine ⟨?_, ?_, ?_⟩
  · intro h; subst h; rfl
  · intro h
    rw [extract_json_eq text h]
    by_cases hcond : pyFind text.toList '\x7b' = -1 ∨ pyRfind text.toList '\x7d' = -1 ∨
        pyRfind text.toList '\x7d' ≤ pyFind text.toList '\x7b'
    · rw [if_pos hcond]
      refine iff_of_true rfl ?_
      rcases hcond with h1 | h2 | h3
      · exact Or.inl ((pyFind_neg_iff _ _).mp h1)
      · exact Or.inr (Or.inl ((pyRfind_neg_iff _ _).mp h2))
      · exact Or.inr (Or.inr h3)
    · rw [if_neg hcond]
      refine iff_of_false (fun hh => Except.noConfusion hh) ?_
      rintro (h1 | h2 | h3)
      · exact hcond (Or.inl ((pyFind_neg_iff _ _).mpr h1))
      · exact hcond (Or.inr (Or.inl ((pyRfind_neg_iff _ _).mpr h2)))
      · exact hcond (Or.inr (Or.inr h3))
  · intro hne hmem1 hmem2 hlt
    have h0 : 0 ≤ pyFind text.toList '\x7b' := (pyFind_nonneg_iff _ _).mpr hmem1
    have he0 : 0 ≤ pyRfind text.toList '\x7d' := (pyRfind_nonneg_iff _ _).mpr hmem2
    have hlen : (pyRfind text.toList '\x7d').toNat < text.toList.length :=
      pyRfind_lt_length _ _ hmem2
    have hcond : ¬ (pyFind text.toList '\x7b' = -1 ∨ pyRfind text.toList '\x7d' = -1 ∨
        pyRfind text.toList '\x7d' ≤ pyFind text.toList '\x7b') := by
      rintro (h1 | h2 | h3) <;> omega
    have hstlt : (pyFind text.toList '\x7b').toNat < (pyRfind text.toList '\x7d').toNat := by
      omega
    refine ⟨text.toList.take (pyFind text.toList '\x7b').toNat,
      (text.toList.drop (pyFind text.toList '\x7b').toNat).take
        ((pyRfind text.toList '\x7d' + 1 - pyFind text.toList '\x7b').toNat),
      text.toList.drop ((pyRfind text.toList '\x7d').toNat + 1), ?_, ?_, ?_, ?_, ?_, ?_⟩
    · have hk : (pyFind text.toList '\x7b').toNat +
          (pyRfind text.toList '\x7d' + 1 - pyFind text.toList '\x7b').toNat =
          (pyRfind text.toList '\x7d').toNat + 1 := by omega
      conv_lhs => rw [← List.take_append_drop (pyFind text.toList '\x7b').toNat text.toList]
      rw [List.append_assoc]
      congr 1
      conv_lhs =>
        rw [← List.take_append_drop
          ((pyRfind text.toList '\x7d' + 1 - pyFind text.toList '\x7b').toNat)
          (text.toList.drop (pyFind text.toList '\x7b').toNat)]
      rw [List.drop_drop, hk]
    · rw [extract_json_eq text hne, if_neg hcond]
    · rw [List.head?_eq_getElem?, List.getElem?_take]
      rw [if_pos (by omega), List.getElem?_drop, Nat.add_zero]
      exact pyFind_getElem _ _ hmem1
    · have hmidlen :
          ((text.toList.drop (pyFind text.toList '\x7b').toNat).take
            ((pyRfind text.toList '\x7d' + 1 - pyFind text.toList '\x7b').toNat)).length =
          (pyRfind text.toList '\x7d' + 1 - pyFind text.toList '\x7b').toNat := by
        rw [List.length_take, List.length_drop]
        omega
      rw [List.getLast?_eq_getElem?, hmidlen, List.getElem?_take]
      rw [if_pos (by omega), List.getElem?_drop,
        show (pyFind text.toList '\x7b').toNat +
            ((pyRfind text.toList '\x7d' + 1 - pyFind text.toList '\x7b').toNat - 1) =
          (pyRfind text.toList '\x7d').toNat by omega]
      exact pyRfind_getElem _ _ hmem2
    · exact pyFind_not_mem_take _ _
    · exact pyRfind_not_mem_drop _ _

/-- Witness for the amended C8 theorem at concrete inputs: the round-trip
example from the spec, and a brace-free input. -/
theorem extract_json_spec_witness :
    (extract_json "hello" = Except.error "No JSON object found in model output" ↔
      '\x7b' ∉ "hello".toList ∨ '\x7d' ∉ "hello".toList ∨
        pyRfind "hello".toList '\x7d' ≤ pyFind "hello".toList '\x7b') ∧
    ∃ pre mid post, "noise \x7b\"a\":1\x7d trailing".toList = pre ++ mid ++ post ∧
      extract_json "noise \x7b\"a\":1\x7d trailing" = Except.ok (String.mk mid) ∧
      mid.head? = some '\x7b' ∧ mid.getLast? = some '\x7d' ∧
      '\x7b' ∉ pre ∧ '\x7d' ∉ post :=
  ⟨(extract_json_spec "hello").2.1 (by decide),
   (extract_json_spec "noise \x7b\"a\":1\x7d trailing").2.2
     (by decide) (by decide) (by decide) (by decide)⟩

/-! ## The retry loop under a service that always fails -/

theorem attemptOnce_err (svc : Nat → Except String SvcResp)
    (jloads : String → Except String JValue) (err : Nat → String) (k : Nat)
    (h : svc k = Except.error (err k)) :
    attemptOnce svc jloads k = Except.error (err k) := by
  unfold attemptOnce
  rw [h]
  rfl

theorem callLoop_allFail {α : Type} (att : Nat → Except String α)
    (err : Nat → String) (hatt : ∀ k, att k = Except.error (err k)) (bd : ℚ) :
    ∀ fuel k, callLoop att bd k (fuel + 1) =
      ⟨Except.error (err (k + fuel)), fuel + 1,
        (List.range fuel).map (fun t => bd * 2 ^ (k + t))⟩ := by
  intro fuel
  induction fuel with
  | zero =>
    intro k
    simp [callLoop, hatt k]
  | succ n ih =>
    intro k
    have step : callLoop att bd k (n + 1 + 1) =
        ⟨(callLoop att bd (k + 1) (n + 1)).result,
         (callLoop att bd (k + 1) (n + 1)).attemptsMade + 1,
         bd * 2 ^ k :: (callLoop att bd (k + 1) (n + 1)).sleeps⟩ := by
      conv_lhs => rw [callLoop]
      simp only [hatt k]
      rw [if_neg (Nat.succ_ne_zero n)]
    rw [step, ih (k + 1)]
    dsimp only
    congr 1
    · exact congrArg _ (congrArg err (by omega))
    · rw [List.range_succ_eq_map, List.map_cons, List.map_map]
      refine congrArg₂ _ (by rw [Nat.add_zero]) ?_
      refine List.map_congr_left ?_
      intro t _
      simp only [Function.comp]
      exact congrArg (fun e => bd * 2 ^ e) (show k + 1 + t = k + (t + 1) by omega)

/-- `_call_openai` when every attempt fails: the full result, in closed
form — the synthetic error response, the error metadata with the last
error, `max_retries + 1` attempts, and the geometric backoff schedule. -/
theorem call_openai_allFail (cfg : CallConfig) (sha nfkc : String → String)
    (svc : Nat → Except String SvcResp) (jloads : String → Except String JValue)
    (system_prompt user_prompt operation : String) (err : Nat → String)
    (hsvc : ∀ k, svc k = Except.error (err k)) :
    call_openai cfg sha nfkc svc jloads system_prompt user_prompt operation =
      ((JValue.obj
          [("text", .str ("ERROR: Failed to process " ++ operation)),
           ("terms_used", .arr []),
           ("warnings", .arr [.str ("openai_failure: " ++ err cfg.max_retries)])],
        { modelId := cfg.model,
          promptHash := prompt_hash sha nfkc system_prompt user_prompt,
          attempts := cfg.max_retries + 1, phase := "error",
          operation := some operation, error := some (err cfg.max_retries) }),
       (List.range cfg.max_retries).map (fun t => cfg.base_delay * 2 ^ t)) := by
  have hatt : ∀ k, attemptOnce svc jloads k = Except.error (err k) :=
    fun k => attemptOnce_err svc jloads err k (hsvc k)
  have hloop := callLoop_allFail (attemptOnce svc jloads) err hatt
    cfg.base_delay cfg.max_retries 0
  simp only [call_openai, hloop, Nat.zero_add]

/-- C1: with an external service that fails on every attempt, `_call_openai`
returns (never raises — it is a total function into response/metadata pairs):
the synthetic outcome whose `text` is exactly
`"ERROR: Failed to process <kind>"`, whose `terms_used` is `[]`, and whose
`warnings` is the non-empty list carrying the failure reason, plus metadata
whose `error` field carries the last error and whose phase is `"error"`. -/
theorem call_openai_failure_contract (cfg : CallConfig) (sha nfkc : String → String)
    (svc : Nat → Except String SvcResp) (jloads : String → Except String JValue)
    (system_prompt user_prompt operation : String) (err : Nat → String)
    (hsvc : ∀ k, svc k = Except.error (err k)) :
    (call_openai cfg sha nfkc svc jloads system_prompt user_prompt operation).1.1 =
      JValue.obj
        [("text", .str ("ERROR: Failed to process " ++ operation)),
         ("terms_used", .arr []),
         ("warnings", .arr [.str ("openai_failure: " ++ err cfg.max_retries)])] ∧
    (call_openai cfg sha nfkc svc jloads system_prompt user_prompt operation).1.2.error =
      some (err cfg.max_retries) ∧
    (call_openai cfg sha nfkc svc jloads system_prompt user_prompt operation).1.2.phase =
      "error" ∧
    [("openai_failure: " ++ err cfg.max_retries)] ≠ ([] : List String) := by
  rw [call_openai_allFail cfg sha nfkc svc jloads system_prompt user_prompt operation err hsvc]
  exact ⟨rfl, rfl, rfl, by simp⟩

/-- Witness for C1 at a concrete always-failing service. -/
theorem call_openai_failure_contract_witness :
    (call_openai defaultConfig id id (fun _ => Except.error "connection refused")
        (fun _ => Except.error "unused") "sys" "user" "multiply").1.1 =
      JValue.obj
        [("text", .str "ERROR: Failed to process multiply"),
         ("terms_used", .arr []),
         ("warnings", .arr [.str "openai_failure: connection refused"])] ∧
    (call_openai defaultConfig id id (fun _ => Except.error "connection refused")
        (fun _ => Except.error "unused") "sys" "user" "multiply").1.2.error =
      some "connection refused" := by
  have h := call_openai_failure_contract defaultConfig id id
    (fun _ => Except.error "connection refused") (fun _ => Except.error "unused")
    "sys" "user" "multiply" (fun _ => "connection refused") (fun _ => rfl)
  exact ⟨h.1, h.2.1⟩

/-- C3 counterexample: under the default configuration (3 retries, base delay
0.4) and an always-failing service, the backoff sleeps taken are
`[0.4, 0.8, 1.6]`; the sleep taken before attempt `k = 1` is the first one,
`0.4 = baseDelay * 2^0`, which differs from the claimed `baseDelay * 2^1`. -/
theorem call_openai_backoff_counterexample :
    (call_openai defaultConfig id id (fun _ => Except.error "service down")
        (fun _ => Except.error "unused") "sys" "user" "multiply").2 =
      [2/5, 4/5, 8/5] ∧
    (call_openai defaultConfig id id (fun _ => Except.error "service down")
        (fun _ => Except.error "unused") "sys" "user" "multiply").2[0]? ≠
      some (defaultConfig.base_delay * 2 ^ 1) := by
  have h := call_openai_allFail defaultConfig id id
    (fun _ => Except.error "service down") (fun _ => Except.error "unused")
    "sys" "user" "multiply" (fun _ => "service down") (fun _ => rfl)
  rw [h]
  have hlist : (List.range defaultConfig.max_retries).map
      (fun t => defaultConfig.base_delay * 2 ^ t) = [2/5, 4/5, 8/5] := by
    norm_num [defaultConfig, List.range_succ]
  refine ⟨hlist, ?_⟩
  rw [hlist]
  intro hc
  have h2 : (2/5 : ℚ) = defaultConfig.base_delay * 2 ^ 1 := by
    simpa using hc
  norm_num [defaultConfig] at h2

/-- C3 (amended): with an always-failing service, `_call_openai` makes
exactly `maxRetries + 1` attempts (4 under the default of 3 retries) before
returning the degraded outcome; the backoff sleeps, in order, are
`baseDelay * 2^0, ..., baseDelay * 2^(maxRetries-1)`, i.e. the sleep taken
before attempt `k` (0-indexed, `k ≥ 1`) is `baseDelay * 2^(k-1)` —
equivalently, the sleep taken after failed attempt `k` is `baseDelay * 2^k`. -/
theorem call_openai_retry_budget (cfg : CallConfig) (sha nfkc : String → String)
    (svc : Nat → Except String SvcResp) (jloads : String → Except String JValue)
    (system_prompt user_prompt operation : String) (err : Nat → String)
    (hsvc : ∀ k, svc k = Except.error (err k)) :
    (call_openai cfg sha nfkc svc jloads system_prompt user_prompt operation).1.2.attempts =
      cfg.max_retries + 1 ∧
    (call_openai cfg sha nfkc svc jloads system_prompt user_prompt operation).2 =
      (List.range cfg.max_retries).map (fun t => cfg.base_delay * 2 ^ t) ∧
    ∀ k, 1 ≤ k → k ≤ cfg.max_retries →
      (call_openai cfg sha nfkc svc jloads system_prompt user_prompt operation).2[k - 1]? =
        some (cfg.base_delay * 2 ^ (k - 1)) := by
  rw [call_openai_allFail cfg sha nfkc svc jloads system_prompt user_prompt operation err hsvc]
  refine ⟨rfl, rfl, ?_⟩
  intro k h1 h2
  rw [List.getElem?_map, List.getElem?_range (by omega)]
  rfl

/-- Witness for the amended C3 theorem: default configuration, concrete
always-failing service; 4 attempts, and the sleep before attempt 1 is
`baseDelay * 2^0`. -/
theorem call_openai_retry_budget_witness :
    (call_openai defaultConfig id id (fun _ => Except.error "down")
        (fun _ => Except.error "unused") "s" "u" "interpret").1.2.attempts = 4 ∧
    (call_openai defaultConfig id id (fun _ => Except.error "down")
        (fun _ => Except.error "unused") "s" "u" "interpret").2[0]? =
      some (defaultConfig.base_delay * 2 ^ 0) := by
  have h := call_openai_retry_budget defaultConfig id id (fun _ => Except.error "down")
    (fun _ => Except.error "unused") "s" "u" "interpret" (fun _ => "down") (fun _ => rfl)
  exact ⟨h.1, by simpa using h.2.2 1 (by decide) (by decide)⟩

/-- C4: the prompt hash is a pure function of the unicode-normalized,
whitespace-collapsed system and user prompt texts: two prompt pairs with
equal normalized forms hash identically, and the hash attached to dispatch
metadata equals `_prompt_hash` of the inputs for every behaviour of the
external service (and so is reproducible offline). -/
theorem prompt_hash_pure (sha nfkc : String → String) (s1 u1 s2 u2 : String)
    (hs : normalize_text nfkc s1 = normalize_text nfkc s2)
    (hu : normalize_text nfkc u1 = normalize_text nfkc u2) :
    prompt_hash sha nfkc s1 u1 = prompt_hash sha nfkc s2 u2 ∧
    ∀ (cfg : CallConfig) (svc : Nat → Except String SvcResp)
      (jloads : String → Except String JValue) (op : String),
      (call_openai cfg sha nfkc svc jloads s1 u1 op).1.2.promptHash =
        prompt_hash sha nfkc s1 u1 := by
  constructor
  · unfold prompt_hash
    rw [hs, hu]
  · intro cfg svc jloads op
    cases hres : (callLoop (attemptOnce svc jloads) cfg.base_delay 0
        (cfg.max_retries + 1)).result with
    | ok a =>
      obtain ⟨m, o⟩ := a
      simp only [call_openai, hres]
    | error e =>
      simp only [call_openai, hres]

/-- Witness for C4: whitespace-only differences hash identically, and the
failure-path metadata carries exactly that hash. -/
theorem prompt_hash_pure_witness :
    prompt_hash id id "a  b" "u\tx" = prompt_hash id id " a b " "u x" ∧
    (call_openai defaultConfig id id (fun _ => Except.error "down")
        (fun _ => Except.error "unused") "a  b" "u\tx" "multiply").1.2.promptHash =
      prompt_hash id id "a  b" "u\tx" := by
  have h := prompt_hash_pure id id "a  b" "u\tx" " a b " "u x" (by decide) (by decide)
  exact ⟨h.1, h.2 defaultConfig (fun _ => Except.error "down")
    (fun _ => Except.error "unused") "multiply"⟩

/-! ## Expected results of the cell pipeline (spec side) -/

/-- The output row label at `i` (Python `A.row_labels[i]` for in-range `i`). -/
def rlab (m : Matrix) (i : Int) : String := m.row_labels.getD i.toNat default

/-- The output column label at `j`. -/
def clab (m : Matrix) (j : Int) : String := m.col_labels.getD j.toNat default

/-- The expected stage-1 products of `compute_cell_C`. -/
def prodsC (A B : Matrix) (i j : Int) : List String :=
  (List.range A.shape.2).map fun k =>
    A.valueAt i.toNat k ++ " * " ++ B.valueAt k j.toNat

/-- The `SemanticContext` built for each stage-2 resolution of variant C. -/
def ctx2C (A B : Matrix) (i j : Int) (vs p : String) : SemanticContext :=
  { station_context := "Requirements", valley_summary := vs, row_label := rlab A i,
    col_label := clab B j, operation_type := "*", terms := [("pair", .s p)],
    matrix := some "C", i := some i, j := some j }

/-- The expected stage-2 resolved concepts of `compute_cell_C`. -/
def resolvedC (A B : Matrix) (i j : Int) (R : Resolver) (vs : String) : List String :=
  (prodsC A B i j).map fun p => R.resolve_semantic_pair p (ctx2C A B i j vs p)

/-- The stage-3 joined string of `compute_cell_C`. -/
def combinedC (A B : Matrix) (i j : Int) (R : Resolver) (vs : String) : String :=
  String.intercalate ", " (resolvedC A B i j R vs)

/-- The `SemanticContext` built for stage-3 lensing of variant C. -/
def ctx3C (A B : Matrix) (i j : Int) (R : Resolver) (vs : String) : SemanticContext :=
  { station_context := "Requirements", valley_summary := vs, row_label := rlab A i,
    col_label := clab B j, operation_type := "interpret",
    terms := [("content", .s (combinedC A B i j R vs))],
    matrix := some "C", i := some i, j := some j }

/-- The final lensed value of `compute_cell_C`. -/
def finalC (A B : Matrix) (i j : Int) (R : Resolver) (vs : String) : String :=
  R.apply_ontological_lens (combinedC A B i j R vs) (ctx3C A B i j R vs)

/-- The Cell `compute_cell_C` returns on valid input. -/
def cellC (A B : Matrix) (i j : Int) (R : Resolver) (vs : String) (tracer : Bool) : Cell :=
  { row := i, col := j, value := finalC A B i j R vs,
    provenance :=
      [("stage_1_products", .list (prodsC A B i j)),
       ("stage_2_resolved", .list (resolvedC A B i j R vs)),
       ("stage_3_lensed", .s (finalC A B i j R vs)),
       ("operation", .s "compute_C"),
       ("coordinates", .s ("(" ++ rlab A i ++ ", " ++ clab B j ++ ")")),
       ("traced", .b tracer)] }

/-- The external calls `compute_cell_C` makes on valid input, in order. -/
def callsC (A B : Matrix) (i j : Int) (R : Resolver) (vs : String) : List RCall :=
  (prodsC A B i j).map RCall.resolve ++ [RCall.lens (combinedC A B i j R vs)]

/-! ## Monad-chain stepping lemmas -/

theorem bindE_ok {α β : Type} {x : Except String α} {a : α} (h : x = Except.ok a)
    (f : α → M β) (s : List RCall) : (M.liftE x >>= f) s = f a s := by
  exact mbind_ok _ f s s a (by rw [liftE_apply, h])

theorem bindE_err {α β : Type} {x : Except String α} {e : String}
    (h : x = Except.error e) (f : α → M β) (s : List RCall) :
    (M.liftE x >>= f) s = (Except.error e, s) := by
  exact mbind_err _ f s s e (by rw [liftE_apply, h])

theorem bind_pure_apply {α β : Type} (a : α) (f : α → M β) (s : List RCall) :
    ((pure a : M α) >>= f) s = f a s := rfl

theorem bind_callResolve {β : Type} (R : Resolver) (p : String)
    (ctx : SemanticContext) (f : String → M β) (s : List RCall) :
    (callResolve R p ctx >>= f) s =
      f (R.resolve_semantic_pair p ctx) (s ++ [RCall.resolve p]) := rfl

theorem bind_callLens {β : Type} (R : Resolver) (c : String)
    (ctx : SemanticContext) (f : String → M β) (s : List RCall) :
    (callLens R c ctx >>= f) s =
      f (R.apply_ontological_lens c ctx) (s ++ [RCall.lens c]) := rfl

/-! ## Stage lemmas for variant C -/

/-- `get_cell` on an in-grid position of a well-formed matrix. -/
theorem get_cell_some (m : Matrix) (hm : m.wf) (r c : Int)
    (hr0 : 0 ≤ r) (hr : r < (m.shape.1 : Int)) (hc0 : 0 ≤ c) (hc : c < (m.shape.2 : Int)) :
    m.get_cell r c =
      Except.ok (some ((m.cells.getD r.toNat default).getD c.toNat default)) := by
  have hr' : r < (m.cells.length : Int) := by
    rw [hm.1]; exact hr
  have hrn : r.toNat < m.cells.length := by omega
  have hmem : m.cells.getD r.toNat default ∈ m.cells := by
    rw [List.getD_eq_getElem m.cells default hrn]
    exact List.getElem_mem hrn
  have hrow : (m.cells.getD r.toNat default).length = m.col_labels.length :=
    hm.2 _ hmem
  have hc' : c < ((m.cells.getD r.toNat default).length : Int) := by
    rw [hrow]; exact hc
  rw [get_cell_eq, if_pos ⟨hr0, hr', hc0, hc'⟩]

/-- `get_cell` returns `None` when the row index is outside the grid. -/
theorem get_cell_none_row (m : Matrix) (r c : Int)
    (h : ¬ (0 ≤ r ∧ r < (m.cells.length : Int))) :
    m.get_cell r c = Except.ok none := by
  rw [get_cell_eq, if_neg (by tauto)]

/-- `get_cell` returns `None` when the column index is outside the row. -/
theorem get_cell_none_col (m : Matrix) (r c : Int)
    (h : ¬ (0 ≤ c ∧ c < ((m.cells.getD r.toNat default).length : Int))) :
    m.get_cell r c = Except.ok none := by
  rw [get_cell_eq, if_neg (by tauto)]

/-- Stage 1 of variant C succeeds on in-range indices and produces exactly
the mechanical product strings, in index order. -/
theorem stage1C_ok (A B : Matrix) (hA : A.wf) (hB : B.wf) (i j : Int)
    (hi0 : 0 ≤ i) (hi : i < (A.shape.1 : Int)) (hj0 : 0 ≤ j) (hj : j < (B.shape.2 : Int)) :
    ∀ ks : List Nat, (∀ k ∈ ks, k < A.shape.2 ∧ k < B.shape.1) →
      stage1C A B i j ks =
        Except.ok (ks.map fun k => A.valueAt i.toNat k ++ " * " ++ B.valueAt k j.toNat) := by
  intro ks
  induction ks with
  | nil => intro _; rfl
  | cons k ks ih =>
    intro hks
    have hk := hks k (List.mem_cons_self k ks)
    have ha : A.get_cell i (k : Int) =
        Except.ok (some ((A.cells.getD i.toNat default).getD (k : Int).toNat default)) :=
      get_cell_some A hA i (k : Int) hi0 hi (by positivity) (by exact_mod_cast hk.1)
    have hb : B.get_cell (k : Int) j =
        Except.ok (some ((B.cells.getD (k : Int).toNat default).getD j.toNat default)) :=
      get_cell_some B hB (k : Int) j (by positivity) (by exact_mod_cast hk.2) hj0 hj
    simp only [stage1C, ha, hb, ebind_ok, pyAttrValue,
      ih (fun k hmem => hks k (List.mem_cons_of_mem _ hmem)), List.map_cons,
      Int.toNat_natCast]
    rfl

/-- Stage 2 of variant C: one context construction and one logged resolver
call per product, in order. -/
theorem stage2C_ok (A B : Matrix) (i j : Int) (R : Resolver) (vs : String)
    (hvs : vs ≠ "")
    (hrl : pyIndex A.row_labels i = Except.ok (rlab A i))
    (hcl : pyIndex B.col_labels j = Except.ok (clab B j)) :
    ∀ (ps : List String) (s : List RCall),
      stage2C A B i j R vs ps s =
        (Except.ok (ps.map fun p => R.resolve_semantic_pair p (ctx2C A B i j vs p)),
         s ++ ps.map RCall.resolve) := by
  intro ps
  induction ps with
  | nil => intro s; simp [stage2C, mpure_apply]
  | cons p ps ih =>
    intro s
    have hmk : mkSemanticContext "Requirements" vs (rlab A i) (clab B j) "*"
        [("pair", .s p)] (some "C") (some i) (some j) =
        Except.ok (ctx2C A B i j vs p) :=
      mkSemanticContext_ok _ _ _ _ _ _ _ _ _ (by decide) hvs (by decide) (by simp)
    simp only [stage2C, bindE_ok hrl, bindE_ok hcl, bindE_ok hmk, bind_callResolve]
    rw [mbind_ok _ _ _ _ _ (ih (s ++ [RCall.resolve p]))]
    simp [mpure_apply, List.append_assoc]

/-- Associativity of the pipeline monad's bind (used to normalize the
do-chains before stepping through them). -/
theorem mbind_assoc {α β γ : Type} (x : M α) (f : α → M β) (g : β → M γ) :
    (x >>= f) >>= g = x >>= fun a => f a >>= g := by
  funext s
  rw [show ((x >>= f) >>= g) s =
      (match (x >>= f) s with
        | (.ok b, s') => g b s'
        | (.error e, s') => (Except.error e, s')) from rfl,
    show (x >>= f) s =
      (match x s with
        | (.ok a, s') => f a s'
        | (.error e, s') => (Except.error e, s')) from rfl,
    show (x >>= fun a => f a >>= g) s =
      (match x s with
        | (.ok a, s') => (f a >>= g) s'
        | (.error e, s') => (Except.error e, s')) from rfl]
  rcases x s with ⟨r, s'⟩
  cases r
  · rfl
  · rfl

theorem pyIndex_rlab (m : Matrix) (i : Int) (h0 : 0 ≤ i) (h : i < (m.shape.1 : Int)) :
    pyIndex m.row_labels i = Except.ok (rlab m i) :=
  pyIndex_pos _ _ h0 h

theorem pyIndex_clab (m : Matrix) (j : Int) (h0 : 0 ≤ j) (h : j < (m.shape.2 : Int)) :
    pyIndex m.col_labels j = Except.ok (clab m j) :=
  pyIndex_pos _ _ h0 h

/-- Key lookup in a Cell's provenance dict. -/
def Cell.prov (c : Cell) (k : String) : Option PValue :=
  (c.provenance.find? (fun kv => kv.1 == k)).map Prod.snd

/-- `compute_cell_C` on valid input: returns exactly the expected cell and
makes exactly the expected external calls, in order. -/
theorem compute_cell_C_ok (A B : Matrix) (hA : A.wf) (hB : B.wf) (i j : Int)
    (hi0 : 0 ≤ i) (hi : i < (A.shape.1 : Int)) (hj0 : 0 ≤ j) (hj : j < (B.shape.2 : Int))
    (hK : A.shape.2 ≤ B.shape.1) (R : Resolver) (vs : String) (tracer : Bool)
    (hvs : vs ≠ "") (s : List RCall) :
    compute_cell_C i j A B R vs tracer s =
      (Except.ok (cellC A B i j R vs tracer), s ++ callsC A B i j R vs) := by
  have hrl := pyIndex_rlab A i hi0 hi
  have hcl := pyIndex_clab B j hj0 hj
  have h1 : stage1C A B i j (List.range A.shape.2) = Except.ok (prodsC A B i j) :=
    stage1C_ok A B hA hB i j hi0 hi hj0 hj _
      (fun k hk => ⟨List.mem_range.mp hk, lt_of_lt_of_le (List.mem_range.mp hk) hK⟩)
  have h2 := stage2C_ok A B i j R vs hvs hrl hcl (prodsC A B i j)
  have hmk3 : mkSemanticContext "Requirements" vs (rlab A i) (clab B j) "interpret"
      [("content", .s (String.intercalate ", "
        ((prodsC A B i j).map fun p => R.resolve_semantic_pair p (ctx2C A B i j vs p))))]
      (some "C") (some i) (some j) = Except.ok (ctx3C A B i j R vs) :=
    mkSemanticContext_ok _ _ _ _ _ _ _ _ _ (by decide) hvs (by decide) (by simp)
  cases tracer with
  | false =>
    simp only [compute_cell_C, Bool.false_eq_true, if_false, mbind_assoc, bindE_ok h1,
      bind_pure_apply]
    rw [mbind_ok _ _ _ _ _ (h2 s)]
    simp only [bindE_ok hrl, bindE_ok hcl, bindE_ok hmk3, bind_callLens, mbind_assoc,
      bind_pure_apply, mpure_apply]
    simp [cellC, callsC, finalC, combinedC, resolvedC, List.append_assoc]
  | true =>
    have hmkT : mkSemanticContext "Requirements" vs (rlab A i) (clab B j)
        "combinatorial" [("products", .list (prodsC A B i j))]
        (some "C") (some i) (some j) = Except.ok
          { station_context := "Requirements", valley_summary := vs,
            row_label := rlab A i, col_label := clab B j,
            operation_type := "combinatorial",
            terms := [("products", .list (prodsC A B i j))],
            matrix := some "C", i := some i, j := some j } :=
      mkSemanticContext_ok _ _ _ _ _ _ _ _ _ (by decide) hvs (by decide) (by simp)
    simp only [compute_cell_C, if_true, mbind_assoc, bindE_ok h1, bindE_ok hrl,
      bindE_ok hcl, bindE_ok hmkT, bind_pure_apply]
    rw [mbind_ok _ _ _ _ _ (h2 s)]
    simp only [bindE_ok hrl, bindE_ok hcl, bindE_ok hmk3, bind_callLens, mbind_assoc,
      bind_pure_apply, mpure_apply]
    simp [cellC, callsC, finalC, combinedC, resolvedC, List.append_assoc]

/-- C2: for matrices with `A.shape[1] == B.shape[0]` and in-range `(i, j)`,
stage 1 of `compute_cell_C` builds exactly `A.shape[1]` product strings, in
increasing index order `k = 0, 1, ...`, each being exactly
`A.cell(i,k).value ++ " * " ++ B.cell(k,j).value`; the same list is what the
returned cell records as its stage-1 products. -/
theorem stage1_products_exact (A B : Matrix) (hA : A.wf) (hB : B.wf) (i j : Int)
    (hi0 : 0 ≤ i) (hi : i < (A.shape.1 : Int)) (hj0 : 0 ≤ j) (hj : j < (B.shape.2 : Int))
    (hshape : A.shape.2 = B.shape.1) :
    stage1C A B i j (List.range A.shape.2) = Except.ok (prodsC A B i j) ∧
    prodsC A B i j =
      (List.range A.shape.2).map
        (fun k => A.valueAt i.toNat k ++ " * " ++ B.valueAt k j.toNat) ∧
    (prodsC A B i j).length = A.shape.2 ∧
    ∀ (R : Resolver) (vs : String) (tracer : Bool) (s : List RCall), vs ≠ "" →
      ∃ cell : Cell,
        compute_cell_C i j A B R vs tracer s =
          (Except.ok cell, s ++ callsC A B i j R vs) ∧
        cell.prov "stage_1_products" = some (.list (prodsC A B i j)) := by
  refine ⟨?_, rfl, by simp [prodsC], ?_⟩
  · exact stage1C_ok A B hA hB i j hi0 hi hj0 hj _
      (fun k hk => ⟨List.mem_range.mp hk, by rw [← hshape]; exact List.mem_range.mp hk⟩)
  · intro R vs tracer s hvs
    refine ⟨cellC A B i j R vs tracer, ?_, ?_⟩
    · exact compute_cell_C_ok A B hA hB i j hi0 hi hj0 hj (le_of_eq hshape) R vs tracer hvs s
    · rfl

/-! ## Concrete fixtures for witnesses -/

/-- A 1×1 input matrix. -/
def wA : Matrix := ⟨"A", "Problem Statement", ["ra"], ["ca"], [[⟨0, 0, "x", []⟩]]⟩

/-- A 1×1 right-operand matrix. -/
def wB : Matrix := ⟨"B", "Problem Statement", ["ca"], ["cb"], [[⟨0, 0, "y", []⟩]]⟩

/-- A deterministic echo resolver (the test double of the spec's capability
interface). -/
def wEcho : Resolver := ⟨fun p _ => p, fun c _ => c⟩

/-- Witness for C2 at the 1×1 fixtures: one product, `"x * y"`, and the
returned cell records it. -/
theorem stage1_products_exact_witness :
    stage1C wA wB 0 0 (List.range wA.shape.2) = Except.ok (prodsC wA wB 0 0) ∧
    prodsC wA wB 0 0 = ["x * y"] ∧
    ∃ cell : Cell,
      compute_cell_C 0 0 wA wB wEcho "v" false [] =
        (Except.ok cell, [] ++ callsC wA wB 0 0 wEcho "v") ∧
      cell.prov "stage_1_products" = some (.list (prodsC wA wB 0 0)) := by
  have h := stage1_products_exact wA wB (by decide) (by decide) 0 0
    (by decide) (by decide) (by decide) (by decide) (by decide)
  exact ⟨h.1, by decide, h.2.2.2 wEcho "v" false [] (by decide)⟩

/-- C6: on valid input, the cell returned by `compute_cell_C` carries a
provenance mapping with all `K` stage-1 products, all `K` stage-2 resolved
concepts, the stage-3 lensed string (equal to the cell's value), the
operation tag `"compute_C"`, and the human-readable coordinate string built
from the output row label at `i` and column label at `j`. -/
theorem compute_cell_C_provenance (A B : Matrix) (hA : A.wf) (hB : B.wf) (i j : Int)
    (hi0 : 0 ≤ i) (hi : i < (A.shape.1 : Int)) (hj0 : 0 ≤ j) (hj : j < (B.shape.2 : Int))
    (hshape : A.shape.2 = B.shape.1) (R : Resolver) (vs : String) (tracer : Bool)
    (hvs : vs ≠ "") (s : List RCall) :
    ∃ cell : Cell,
      compute_cell_C i j A B R vs tracer s =
        (Except.ok cell, s ++ callsC A B i j R vs) ∧
      cell.prov "stage_1_products" = some (.list (prodsC A B i j)) ∧
      (prodsC A B i j).length = A.shape.2 ∧
      cell.prov "stage_2_resolved" = some (.list (resolvedC A B i j R vs)) ∧
      (resolvedC A B i j R vs).length = A.shape.2 ∧
      cell.prov "stage_3_lensed" = some (.s (finalC A B i j R vs)) ∧
      cell.value = finalC A B i j R vs ∧
      cell.prov "operation" = some (.s "compute_C") ∧
      cell.prov "coordinates" =
        some (.s ("(" ++ rlab A i ++ ", " ++ clab B j ++ ")")) := by
  refine ⟨cellC A B i j R vs tracer,
    compute_cell_C_ok A B hA hB i j hi0 hi hj0 hj (le_of_eq hshape) R vs tracer hvs s,
    rfl, by simp [prodsC], rfl, by simp [resolvedC, prodsC], rfl, rfl, rfl, rfl⟩

/-- Witness for C6 at the 1×1 fixtures with the echo resolver. -/
theorem compute_cell_C_provenance_witness :
    ∃ cell : Cell,
      compute_cell_C 0 0 wA wB wEcho "valley" true [] =
        (Except.ok cell, [] ++ callsC wA wB 0 0 wEcho "valley") ∧
      cell.prov "stage_1_products" = some (.list (prodsC wA wB 0 0)) ∧
      (prodsC wA wB 0 0).length = wA.shape.2 ∧
      cell.prov "stage_2_resolved" = some (.list (resolvedC wA wB 0 0 wEcho "valley")) ∧
      (resolvedC wA wB 0 0 wEcho "valley").length = wA.shape.2 ∧
      cell.prov "stage_3_lensed" = some (.s (finalC wA wB 0 0 wEcho "valley")) ∧
      cell.value = finalC wA wB 0 0 wEcho "valley" ∧
      cell.prov "operation" = some (.s "compute_C") ∧
      cell.prov "coordinates" =
        some (.s ("(" ++ rlab wA 0 ++ ", " ++ clab wB 0 ++ ")")) :=
  compute_cell_C_provenance wA wB (by decide) (by decide) 0 0
    (by decide) (by decide) (by decide) (by decide) (by decide)
    wEcho "valley" true (by decide) []

/-! ## Matrix-level wrapper (variant C) -/

theorem getD_map_range {α : Type} (n r : Nat) (f : Nat → α) (d : α) (h : r < n) :
    ((List.range n).map f).getD r d = f r := by
  rw [List.getD_eq_getElem _ _ (by simpa using h)]
  simp

theorem matrixRowC_ok (A B : Matrix) (hA : A.wf) (hB : B.wf)
    (hK : A.shape.2 ≤ B.shape.1) (R : Resolver) (vs : String) (tracer : Bool)
    (hvs : vs ≠ "") (i : Nat) (hi : (i : Int) < (A.shape.1 : Int)) :
    ∀ js : List Nat, (∀ x ∈ js, (x : Int) < (B.shape.2 : Int)) → ∀ s : List RCall,
      ∃ s', matrixRowC A B R vs tracer i js s =
        (Except.ok (js.map fun jj : Nat => cellC A B (i : Int) (jj : Int) R vs tracer), s') := by
  intro js
  induction js with
  | nil => intro _ s; exact ⟨s, rfl⟩
  | cons jj js ih =>
    intro hjs s
    have hcell := compute_cell_C_ok A B hA hB (i : Int) (jj : Int)
      (by positivity) hi (by positivity) (hjs jj (List.mem_cons_self jj js)) hK
      R vs tracer hvs s
    obtain ⟨s'', hrest⟩ := ih (fun x hx => hjs x (List.mem_cons_of_mem _ hx))
      (s ++ callsC A B (i : Int) (jj : Int) R vs)
    refine ⟨s'', ?_⟩
    simp only [matrixRowC]
    rw [mbind_ok _ _ _ _ _ hcell, mbind_ok _ _ _ _ _ hrest]
    simp [mpure_apply]

theorem matrixRowsC_ok (A B : Matrix) (hA : A.wf) (hB : B.wf)
    (hK : A.shape.2 ≤ B.shape.1) (hB4 : 4 ≤ B.shape.2) (R : Resolver) (vs : String)
    (tracer : Bool) (hvs : vs ≠ "") :
    ∀ is' : List Nat, (∀ x ∈ is', (x : Int) < (A.shape.1 : Int)) → ∀ s : List RCall,
      ∃ s', matrixRowsC A B R vs tracer is' s =
        (Except.ok (is'.map fun i : Nat =>
          (List.range 4).map fun jj : Nat => cellC A B (i : Int) (jj : Int) R vs tracer), s') := by
  intro is'
  induction is' with
  | nil => intro _ s; exact ⟨s, rfl⟩
  | cons i is' ih =>
    intro his s
    obtain ⟨s1, hrow⟩ := matrixRowC_ok A B hA hB hK R vs tracer hvs i
      (his i (List.mem_cons_self i is')) (List.range 4)
      (fun x hx => by
        have := List.mem_range.mp hx
        omega) s
    obtain ⟨s2, hrest⟩ := ih (fun x hx => his x (List.mem_cons_of_mem _ hx)) s1
    refine ⟨s2, ?_⟩
    simp only [matrixRowsC]
    rw [mbind_ok _ _ _ _ _ hrow, mbind_ok _ _ _ _ _ hrest]
    simp [mpure_apply]

/-- C7: for valid 3×4 / 4×4 inputs, `compute_matrix_C` returns a 3×4 grid in
which the cell stored at grid position `(r, c)` has `row = r` and `col = c`,
and whose row labels are A's row labels and column labels are B's column
labels (name `"C"`, station `"Requirements"`). -/
theorem compute_matrix_C_grid (A B : Matrix) (hA : A.wf) (hB : B.wf)
    (hsA : A.shape = (3, 4)) (hsB : B.shape = (4, 4)) (R : Resolver) (vs : String)
    (tracer : Bool) (hvs : vs ≠ "") (s : List RCall) :
    ∃ (Cm : Matrix) (s' : List RCall),
      compute_matrix_C A B R vs tracer s = (Except.ok Cm, s') ∧
      Cm.name = "C" ∧ Cm.station = "Requirements" ∧
      Cm.row_labels = A.row_labels ∧ Cm.col_labels = B.col_labels ∧
      Cm.cells.length = 3 ∧
      (∀ r, r < 3 → (Cm.cells.getD r default).length = 4) ∧
      (∀ r c, r < 3 → c < 4 →
        ((Cm.cells.getD r default).getD c default).row = (r : Int) ∧
        ((Cm.cells.getD r default).getD c default).col = (c : Int)) := by
  have hK : A.shape.2 ≤ B.shape.1 := by rw [hsA, hsB]
  have hB4 : 4 ≤ B.shape.2 := by rw [hsB]
  obtain ⟨s', hrows⟩ := matrixRowsC_ok A B hA hB hK hB4 R vs tracer hvs
    (List.range 3)
    (fun x hx => by
      have := List.mem_range.mp hx
      rw [hsA]
      exact_mod_cast this) s
  refine ⟨⟨"C", "Requirements", A.row_labels, B.col_labels,
    (List.range 3).map fun i : Nat =>
      (List.range 4).map fun jj : Nat => cellC A B (i : Int) (jj : Int) R vs tracer⟩,
    s', ?_, rfl, rfl, rfl, rfl, by simp, ?_, ?_⟩
  · simp only [compute_matrix_C]
    rw [mbind_ok _ _ _ _ _ hrows]
    rfl
  · intro r hr
    rw [getD_map_range 3 r _ _ hr]
    simp
  · intro r c hr hc
    rw [getD_map_range 3 r _ _ hr, getD_map_range 4 c _ _ hc]
    exact ⟨rfl, rfl⟩

/-- A canonical-shaped 3×4 left input. -/
def wA3 : Matrix :=
  ⟨"A", "Problem Statement",
   ["normative", "operative", "evaluative"],
   ["determinacy", "sufficiency", "completeness", "consistency"],
   [[⟨0, 0, "a00", []⟩, ⟨0, 1, "a01", []⟩, ⟨0, 2, "a02", []⟩, ⟨0, 3, "a03", []⟩],
    [⟨1, 0, "a10", []⟩, ⟨1, 1, "a11", []⟩, ⟨1, 2, "a12", []⟩, ⟨1, 3, "a13", []⟩],
    [⟨2, 0, "a20", []⟩, ⟨2, 1, "a21", []⟩, ⟨2, 2, "a22", []⟩, ⟨2, 3, "a23", []⟩]]⟩

/-- A canonical-shaped 4×4 right input. -/
def wB4 : Matrix :=
  ⟨"B", "Problem Statement",
   ["data", "information", "knowledge", "wisdom"],
   ["necessity", "sufficiency", "completeness", "consistency"],
   [[⟨0, 0, "b00", []⟩, ⟨0, 1, "b01", []⟩, ⟨0, 2, "b02", []⟩, ⟨0, 3, "b03", []⟩],
    [⟨1, 0, "b10", []⟩, ⟨1, 1, "b11", []⟩, ⟨1, 2, "b12", []⟩, ⟨1, 3, "b13", []⟩],
    [⟨2, 0, "b20", []⟩, ⟨2, 1, "b21", []⟩, ⟨2, 2, "b22", []⟩, ⟨2, 3, "b23", []⟩],
    [⟨3, 0, "b30", []⟩, ⟨3, 1, "b31", []⟩, ⟨3, 2, "b32", []⟩, ⟨3, 3, "b33", []⟩]]⟩

/-- Witness for C7 at canonical-shaped concrete inputs. -/
theorem compute_matrix_C_grid_witness :
    ∃ (Cm : Matrix) (s' : List RCall),
      compute_matrix_C wA3 wB4 wEcho "valley" false [] = (Except.ok Cm, s') ∧
      Cm.name = "C" ∧ Cm.station = "Requirements" ∧
      Cm.row_labels = wA3.row_labels ∧ Cm.col_labels = wB4.col_labels ∧
      Cm.cells.length = 3 ∧
      (∀ r, r < 3 → (Cm.cells.getD r default).length = 4) ∧
      (∀ r c, r < 3 → c < 4 →
        ((Cm.cells.getD r default).getD c default).row = (r : Int) ∧
        ((Cm.cells.getD r default).getD c default).col = (c : Int)) :=
  compute_matrix_C_grid wA3 wB4 (by decide) (by decide) (by decide) (by decide)
    wEcho "valley" false (by decide) []

/-! ## Variants F and D: expected results -/

/-- `(i, j)` lies inside the shape of `m`. -/
def inShape (m : Matrix) (i j : Int) : Prop :=
  0 ≤ i ∧ i < (m.shape.1 : Int) ∧ 0 ≤ j ∧ j < (m.shape.2 : Int)

instance (m : Matrix) (i j : Int) : Decidable (inShape m i j) := by
  unfold inShape; infer_instance

/-- The element-wise pair string of variant F. -/
def pairF (J C : Matrix) (i j : Int) : String :=
  J.valueAt i.toNat j.toNat ++ " * " ++ C.valueAt i.toNat j.toNat

/-- The stage-1 context of variant F. -/
def ctxF1 (J C : Matrix) (i j : Int) (vs : String) : SemanticContext :=
  { station_context := "Objectives", valley_summary := vs, row_label := rlab J i,
    col_label := clab J j, operation_type := "*",
    terms := [("pair", .s (pairF J C i j))], matrix := some "F",
    i := some i, j := some j }

/-- The resolved concept of variant F. -/
def resolvedF (J C : Matrix) (i j : Int) (R : Resolver) (vs : String) : String :=
  R.resolve_semantic_pair (pairF J C i j) (ctxF1 J C i j vs)

/-- The lensing context of variant F. -/
def ctxF2 (J C : Matrix) (i j : Int) (R : Resolver) (vs : String) : SemanticContext :=
  { station_context := "Objectives", valley_summary := vs, row_label := rlab J i,
    col_label := clab J j, operation_type := "interpret",
    terms := [("content", .s (resolvedF J C i j R vs))], matrix := some "F",
    i := some i, j := some j }

/-- The final value of variant F. -/
def finalF (J C : Matrix) (i j : Int) (R : Resolver) (vs : String) : String :=
  R.apply_ontological_lens (resolvedF J C i j R vs) (ctxF2 J C i j R vs)

/-- The cell `compute_cell_F` returns on valid input. -/
def cellF (J C : Matrix) (i j : Int) (R : Resolver) (vs : String) (tracer : Bool) : Cell :=
  { row := i, col := j, value := finalF J C i j R vs,
    provenance :=
      [("stage_1_element_wise", .s (pairF J C i j)),
       ("stage_2_resolved", .s (resolvedF J C i j R vs)),
       ("stage_3_lensed", .s (finalF J C i j R vs)),
       ("operation", .s "compute_F"),
       ("coordinates", .s ("(" ++ rlab J i ++ ", " ++ clab J j ++ ")")),
       ("traced", .b tracer)] }

/-- The external calls of variant F, in order. -/
def callsF (J C : Matrix) (i j : Int) (R : Resolver) (vs : String) : List RCall :=
  [RCall.resolve (pairF J C i j), RCall.lens (resolvedF J C i j R vs)]

/-- The synthesis statement of variant D. -/
def synthD (A F : Matrix) (i j : Int) (problem : String) : String :=
  A.valueAt i.toNat j.toNat ++ " applied to frame the problem of " ++ problem ++
    " and " ++ F.valueAt i.toNat j.toNat ++ " to resolve the problem"

/-- The lensing context of variant D. -/
def ctxD2 (A F : Matrix) (i j : Int) (problem vs : String) : SemanticContext :=
  { station_context := "Objectives", valley_summary := vs, row_label := rlab A i,
    col_label := clab A j, operation_type := "interpret",
    terms := [("content", .s (synthD A F i j problem)), ("problem", .s problem)],
    matrix := some "D", i := some i, j := some j }

/-- The final value of variant D. -/
def finalD (A F : Matrix) (i j : Int) (problem : String) (R : Resolver) (vs : String) : String :=
  R.apply_ontological_lens (synthD A F i j problem) (ctxD2 A F i j problem vs)

/-- The cell `synthesize_cell_D` returns on valid input. -/
def cellD (A F : Matrix) (i j : Int) (problem : String) (R : Resolver) (vs : String)
    (tracer : Bool) : Cell :=
  { row := i, col := j, value := finalD A F i j problem R vs,
    provenance :=
      [("stage_1_synthesis", .s (synthD A F i j problem)),
       ("stage_2_lensed", .s (finalD A F i j problem R vs)),
       ("operation", .s "synthesize_D"),
       ("problem", .s problem),
       ("coordinates", .s ("(" ++ rlab A i ++ ", " ++ clab A j ++ ")")),
       ("traced", .b tracer)] }

/-- The external calls of variant D: a single lens application. -/
def callsD (A F : Matrix) (i j : Int) (problem : String) : List RCall :=
  [RCall.lens (synthD A F i j problem)]

/-! ## Success and failure lemmas for variants F and D -/

theorem bindE_ok_pure {α β : Type} (a : α) (f : α → M β) (s : List RCall) :
    (M.liftE (Except.ok a) >>= f) s = f a s :=
  bindE_ok rfl f s

theorem bindE_err_lit {α β : Type} (e : String) (f : α → M β) (s : List RCall) :
    (M.liftE (Except.error e) >>= f) s = (Except.error e, s) :=
  bindE_err rfl f s

theorem compute_cell_F_ok (J C : Matrix) (hJ : J.wf) (hC : C.wf) (i j : Int)
    (hiJ : inShape J i j) (hiC : inShape C i j) (R : Resolver) (vs : String)
    (tracer : Bool) (hvs : vs ≠ "") (s : List RCall) :
    compute_cell_F i j J C R vs tracer s =
      (Except.ok (cellF J C i j R vs tracer), s ++ callsF J C i j R vs) := by
  obtain ⟨hi0, hi, hj0, hj⟩ := hiJ
  obtain ⟨hi0', hi', hj0', hj'⟩ := hiC
  have hjc := get_cell_some J hJ i j hi0 hi hj0 hj
  have hcc := get_cell_some C hC i j hi0' hi' hj0' hj'
  have hrl := pyIndex_rlab J i hi0 hi
  have hcl := pyIndex_clab J j hj0 hj
  simp only [compute_cell_F, mbind_assoc, bindE_ok hjc, bindE_ok hcc, pyAttrValue,
    bindE_ok_pure, bindE_ok hrl, bindE_ok hcl]
  rw [bindE_ok (mkSemanticContext_ok "Objectives" vs (rlab J i) (clab J j) "*" _ _ _ _
    (by decide) hvs (by decide) (by simp))]
  simp only [bind_callResolve]
  rw [bindE_ok (pyIndex_rlab J i hi0 hi), bindE_ok (pyIndex_clab J j hj0 hj)]
  rw [bindE_ok (mkSemanticContext_ok "Objectives" vs (rlab J i) (clab J j) "interpret" _ _ _ _
    (by decide) hvs (by decide) (by simp))]
  simp only [bind_callLens]
  rw [bindE_ok (pyIndex_rlab J i hi0 hi), bindE_ok (pyIndex_clab J j hj0 hj)]
  simp [mpure_apply, cellF, callsF, finalF, resolvedF, ctxF2, ctxF1, pairF,
    Matrix.valueAt, List.append_assoc]

theorem compute_cell_F_err (J C : Matrix) (hJ : J.wf) (hC : C.wf) (i j : Int)
    (h : ¬ inShape J i j ∨ ¬ inShape C i j) (R : Resolver) (vs : String)
    (tracer : Bool) :
    ∃ e, compute_cell_F i j J C R vs tracer [] = (Except.error e, []) := by
  have hnone : ∀ (m : Matrix), m.wf → ¬ inShape m i j → m.get_cell i j = Except.ok none := by
    intro m hm hns
    rw [get_cell_eq]
    rw [if_neg ?_]
    intro hcond
    apply hns
    have h1 : i.toNat < m.cells.length := by omega
    have hmem : m.cells.getD i.toNat default ∈ m.cells := by
      rw [List.getD_eq_getElem m.cells default h1]
      exact List.getElem_mem h1
    have hrow := hm.2 _ hmem
    refine ⟨hcond.1, ?_, hcond.2.2.1, ?_⟩
    · show i < (m.row_labels.length : Int)
      rw [← hm.1]
      exact hcond.2.1
    · show j < (m.col_labels.length : Int)
      rw [← hrow]
      exact hcond.2.2.2
  rcases h with hbad | hbad
  · have hjc := hnone J hJ hbad
    refine ⟨"AttributeError: 'NoneType' object has no attribute 'value'", ?_⟩
    simp only [compute_cell_F, mbind_assoc, bindE_ok hjc, bindE_ok (get_cell_eq C i j),
      pyAttrValue, bindE_err_lit]
  · by_cases hJok : inShape J i j
    · obtain ⟨hi0, hi, hj0, hj⟩ := hJok
      have hjc := get_cell_some J hJ i j hi0 hi hj0 hj
      have hcc := hnone C hC hbad
      refine ⟨"AttributeError: 'NoneType' object has no attribute 'value'", ?_⟩
      simp only [compute_cell_F, mbind_assoc, bindE_ok hjc, bindE_ok hcc,
        pyAttrValue, bindE_ok_pure, bindE_err_lit]
    · have hjc := hnone J hJ hJok
      refine ⟨"AttributeError: 'NoneType' object has no attribute 'value'", ?_⟩
      simp only [compute_cell_F, mbind_assoc, bindE_ok hjc, bindE_ok (get_cell_eq C i j),
        pyAttrValue, bindE_err_lit]

/-- `get_cell` is `None` whenever `(i, j)` is outside the shape of a
well-formed matrix. -/
theorem get_cell_none_of_not_inShape (m : Matrix) (hm : m.wf) (i j : Int)
    (hns : ¬ inShape m i j) : m.get_cell i j = Except.ok none := by
  rw [get_cell_eq]
  rw [if_neg ?_]
  intro hcond
  apply hns
  have h1 : i.toNat < m.cells.length := by omega
  have hmem : m.cells.getD i.toNat default ∈ m.cells := by
    rw [List.getD_eq_getElem m.cells default h1]
    exact List.getElem_mem h1
  have hrow := hm.2 _ hmem
  refine ⟨hcond.1, ?_, hcond.2.2.1, ?_⟩
  · show i < (m.row_labels.length : Int)
    rw [← hm.1]
    exact hcond.2.1
  · show j < (m.col_labels.length : Int)
    rw [← hrow]
    exact hcond.2.2.2

/-- `get_cell` is `None` at any row whenever the column index is outside the
column axis of a well-formed matrix. -/
theorem get_cell_none_of_col_out (m : Matrix) (hm : m.wf) (k j : Int)
    (hbad : ¬ (0 ≤ j ∧ j < (m.shape.2 : Int))) : m.get_cell k j = Except.ok none := by
  by_cases hrow : 0 ≤ k ∧ k < (m.cells.length : Int)
  · apply get_cell_none_col
    intro hcond
    apply hbad
    have h1 : k.toNat < m.cells.length := by omega
    have hmem : m.cells.getD k.toNat default ∈ m.cells := by
      rw [List.getD_eq_getElem m.cells default h1]
      exact List.getElem_mem h1
    have hrowlen := hm.2 _ hmem
    refine ⟨hcond.1, ?_⟩
    show j < (m.col_labels.length : Int)
    rw [← hrowlen]
    exact hcond.2
  · exact get_cell_none_row m k j hrow

theorem synthesize_cell_D_ok (A F : Matrix) (hA : A.wf) (hF : F.wf) (i j : Int)
    (hiA : inShape A i j) (hiF : inShape F i j) (problem : String) (R : Resolver)
    (vs : String) (tracer : Bool) (hvs : vs ≠ "") (s : List RCall) :
    synthesize_cell_D i j A F problem R vs tracer s =
      (Except.ok (cellD A F i j problem R vs tracer), s ++ callsD A F i j problem) := by
  obtain ⟨hi0, hi, hj0, hj⟩ := hiA
  obtain ⟨hi0', hi', hj0', hj'⟩ := hiF
  have hac := get_cell_some A hA i j hi0 hi hj0 hj
  have hfc := get_cell_some F hF i j hi0' hi' hj0' hj'
  have hrl := pyIndex_rlab A i hi0 hi
  have hcl := pyIndex_clab A j hj0 hj
  cases tracer with
  | false =>
    simp only [synthesize_cell_D, Bool.false_eq_true, if_false, mbind_assoc,
      bindE_ok hac, bindE_ok hfc, pyAttrValue, bindE_ok_pure, bind_pure_apply]
    rw [bindE_ok hrl, bindE_ok hcl]
    rw [bindE_ok (mkSemanticContext_ok "Objectives" vs (rlab A i) (clab A j)
      "interpret" _ _ _ _ (by decide) hvs (by decide) (by simp))]
    simp only [bind_callLens]
    rw [bindE_ok hrl, bindE_ok hcl]
    simp [mpure_apply, cellD, callsD, finalD, ctxD2, synthD, Matrix.valueAt,
      List.append_assoc]
  | true =>
    simp only [synthesize_cell_D, if_true, mbind_assoc, bindE_ok hac, bindE_ok hfc,
      pyAttrValue, bindE_ok_pure]
    rw [bindE_ok hrl, bindE_ok hcl]
    rw [bindE_ok (mkSemanticContext_ok "Objectives" vs (rlab A i) (clab A j)
      "synthesis" _ _ _ _ (by decide) hvs (by decide) (by simp))]
    simp only [bind_pure_apply]
    rw [bindE_ok hrl, bindE_ok hcl]
    rw [bindE_ok (mkSemanticContext_ok "Objectives" vs (rlab A i) (clab A j)
      "interpret" _ _ _ _ (by decide) hvs (by decide) (by simp))]
    simp only [bind_callLens]
    rw [bindE_ok hrl, bindE_ok hcl]
    simp [mpure_apply, cellD, callsD, finalD, ctxD2, synthD, Matrix.valueAt,
      List.append_assoc]

theorem synthesize_cell_D_err (A F : Matrix) (hA : A.wf) (hF : F.wf) (i j : Int)
    (h : ¬ inShape A i j ∨ ¬ inShape F i j) (problem : String) (R : Resolver)
    (vs : String) (tracer : Bool) :
    ∃ e, synthesize_cell_D i j A F problem R vs tracer [] = (Except.error e, []) := by
  rcases h with hbad | hbad
  · have hac := get_cell_none_of_not_inShape A hA i j hbad
    refine ⟨"AttributeError: 'NoneType' object has no attribute 'value'", ?_⟩
    simp only [synthesize_cell_D, mbind_assoc, bindE_ok hac, bindE_ok (get_cell_eq F i j),
      pyAttrValue, bindE_err_lit]
  · by_cases hAok : inShape A i j
    · obtain ⟨hi0, hi, hj0, hj⟩ := hAok
      have hac := get_cell_some A hA i j hi0 hi hj0 hj
      have hfc := get_cell_none_of_not_inShape F hF i j hbad
      refine ⟨"AttributeError: 'NoneType' object has no attribute 'value'", ?_⟩
      simp only [synthesize_cell_D, mbind_assoc, bindE_ok hac, bindE_ok hfc,
        pyAttrValue, bindE_ok_pure, bindE_err_lit]
    · have hac := get_cell_none_of_not_inShape A hA i j hAok
      refine ⟨"AttributeError: 'NoneType' object has no attribute 'value'", ?_⟩
      simp only [synthesize_cell_D, mbind_assoc, bindE_ok hac, bindE_ok (get_cell_eq F i j),
        pyAttrValue, bindE_err_lit]

/-! ## Stage-1 failure lemmas for variant C -/

/-- Stage 1 errors at its first index when the row coordinate is out of
range. -/
theorem stage1C_err_i (A B : Matrix) (hA : A.wf) (i j : Int)
    (hbad : ¬ (0 ≤ i ∧ i < (A.shape.1 : Int))) (k : Nat) (ks : List Nat) :
    ∃ e, stage1C A B i j (k :: ks) = Except.error e := by
  have ha : A.get_cell i (k : Int) = Except.ok none := by
    apply get_cell_none_row
    intro hcond
    apply hbad
    refine ⟨hcond.1, ?_⟩
    show i < (A.row_labels.length : Int)
    rw [← hA.1]
    exact hcond.2
  refine ⟨"AttributeError: 'NoneType' object has no attribute 'value'", ?_⟩
  simp only [stage1C, ha, bindE_ok, ebind_ok, get_cell_eq B, pyAttrValue, ebind_err]

/-- Stage 1 errors at its first index when the column coordinate is out of
range (while the row coordinate is in range). -/
theorem stage1C_err_j (A B : Matrix) (hA : A.wf) (hB : B.wf) (i j : Int)
    (hi0 : 0 ≤ i) (hi : i < (A.shape.1 : Int))
    (hbad : ¬ (0 ≤ j ∧ j < (B.shape.2 : Int))) (k : Nat) (ks : List Nat)
    (hk : k < A.shape.2) :
    ∃ e, stage1C A B i j (k :: ks) = Except.error e := by
  have ha := get_cell_some A hA i (k : Int) hi0 hi (by positivity) (by exact_mod_cast hk)
  have hb : B.get_cell (k : Int) j = Except.ok none :=
    get_cell_none_of_col_out B hB (k : Int) j hbad
  refine ⟨"AttributeError: 'NoneType' object has no attribute 'value'", ?_⟩
  simp only [stage1C, ha, hb, ebind_ok, pyAttrValue, ebind_err]

/-- Stage 1 errors when the shared index list reaches a row that `B` does not
have (the `A.cols > B.rows` shape mismatch). -/
theorem stage1C_err_mismatch (A B : Matrix) (hA : A.wf) (hB : B.wf) (i j : Int)
    (hi0 : 0 ≤ i) (hi : i < (A.shape.1 : Int)) (hj0 : 0 ≤ j) (hj : j < (B.shape.2 : Int)) :
    ∀ ks : List Nat, (∀ k ∈ ks, k < A.shape.2) → (∃ k ∈ ks, B.shape.1 ≤ k) →
      ∃ e, stage1C A B i j ks = Except.error e := by
  intro ks
  induction ks with
  | nil =>
    rintro _ ⟨k, hk, -⟩
    cases hk
  | cons k ks ih =>
    rintro hall ⟨kb, hkb, hkbad⟩
    by_cases hk : B.shape.1 ≤ k
    · have ha := get_cell_some A hA i (k : Int) hi0 hi (by positivity)
        (by exact_mod_cast hall k (List.mem_cons_self k ks))
      have hb : B.get_cell (k : Int) j = Except.ok none := by
        apply get_cell_none_row
        intro hcond
        have hlen : B.cells.length = B.shape.1 := hB.1
        omega
      refine ⟨"AttributeError: 'NoneType' object has no attribute 'value'", ?_⟩
      simp only [stage1C, ha, hb, ebind_ok, pyAttrValue, ebind_err]
    · have hkks : kb ∈ ks := by
        rcases List.mem_cons.mp hkb with hh | hh
        · exact absurd (hh ▸ hkbad) hk
        · exact hh
      obtain ⟨e, he⟩ := ih (fun x hx => hall x (List.mem_cons_of_mem _ hx))
        ⟨kb, hkks, hkbad⟩
      have ha := get_cell_some A hA i (k : Int) hi0 hi (by positivity)
        (by exact_mod_cast hall k (List.mem_cons_self k ks))
      have hb := get_cell_some B hB (k : Int) j (by positivity)
        (by exact_mod_cast Nat.lt_of_not_le hk) hj0 hj
      refine ⟨e, ?_⟩
      simp only [stage1C, ha, hb, ebind_ok, pyAttrValue, he, ebind_err]

/-- A stage-1 failure is the whole cell computation's failure, with no
external call made (the call log is still empty). -/
theorem compute_cell_C_err_of_stage1 (A B : Matrix) (i j : Int) (R : Resolver)
    (vs : String) (tracer : Bool) (e : String)
    (h : stage1C A B i j (List.range A.shape.2) = Except.error e) :
    compute_cell_C i j A B R vs tracer [] = (Except.error e, []) := by
  simp only [compute_cell_C, mbind_assoc, bindE_err h]

/-- C5 (amended): for each cell-pipeline variant, an invalid access raises
before any external resolution call (the call log at the error is empty), and
a raise can only come from such a violation — but a shape mismatch alone does
not raise: variant C raises on out-of-range `(i, j)` or when `A.cols >
B.rows`, yet runs to completion (with external calls) when `A.cols ≤ B.rows`;
variants F and D raise exactly when `(i, j)` is outside either operand, so
unequal shapes with in-range coordinates do not raise. -/
theorem cell_pipeline_raise_behavior (A B : Matrix) (hA : A.wf) (hB : B.wf)
    (R : Resolver) (vs : String) (tracer : Bool) (problem : String) (i j : Int)
    (hvs : vs ≠ "") (hK0 : 0 < A.shape.2) :
    ((¬ (0 ≤ i ∧ i < (A.shape.1 : Int)) ∨ ¬ (0 ≤ j ∧ j < (B.shape.2 : Int)) ∨
        B.shape.1 < A.shape.2) →
      ∃ e, compute_cell_C i j A B R vs tracer [] = (Except.error e, [])) ∧
    ((0 ≤ i ∧ i < (A.shape.1 : Int)) → (0 ≤ j ∧ j < (B.shape.2 : Int)) →
      A.shape.2 ≤ B.shape.1 →
      compute_cell_C i j A B R vs tracer [] =
        (Except.ok (cellC A B i j R vs tracer), callsC A B i j R vs)) ∧
    ((¬ inShape A i j ∨ ¬ inShape B i j) →
      ∃ e, compute_cell_F i j A B R vs tracer [] = (Except.error e, [])) ∧
    (inShape A i j → inShape B i j →
      compute_cell_F i j A B R vs tracer [] =
        (Except.ok (cellF A B i j R vs tracer), callsF A B i j R vs)) ∧
    ((¬ inShape A i j ∨ ¬ inShape B i j) →
      ∃ e, synthesize_cell_D i j A B problem R vs tracer [] = (Except.error e, [])) ∧
    (inShape A i j → inShape B i j →
      synthesize_cell_D i j A B problem R vs tracer [] =
        (Except.ok (cellD A B i j problem R vs tracer), callsD A B i j problem)) := by
  obtain ⟨K', hK'⟩ : ∃ K', A.shape.2 = K' + 1 := ⟨A.shape.2 - 1, by omega⟩
  have hrange : List.range A.shape.2 = 0 :: (List.range K').map Nat.succ := by
    rw [hK', List.range_succ_eq_map]
  have erri : ¬ (0 ≤ i ∧ i < (A.shape.1 : Int)) →
      ∃ e, compute_cell_C i j A B R vs tracer [] = (Except.error e, []) := by
    intro hib
    obtain ⟨e, he⟩ := stage1C_err_i A B hA i j hib 0 ((List.range K').map Nat.succ)
    exact ⟨e, compute_cell_C_err_of_stage1 A B i j R vs tracer e (by rw [hrange]; exact he)⟩
  have errj : (0 ≤ i ∧ i < (A.shape.1 : Int)) → ¬ (0 ≤ j ∧ j < (B.shape.2 : Int)) →
      ∃ e, compute_cell_C i j A B R vs tracer [] = (Except.error e, []) := by
    intro hi hjb
    obtain ⟨e, he⟩ := stage1C_err_j A B hA hB i j hi.1 hi.2 hjb 0
      ((List.range K').map Nat.succ) hK0
    exact ⟨e, compute_cell_C_err_of_stage1 A B i j R vs tracer e (by rw [hrange]; exact he)⟩
  refine ⟨?_, ?_, ?_, ?_, ?_, ?_⟩
  · rintro (hib | hjb | hmis)
    · exact erri hib
    · by_cases hi : 0 ≤ i ∧ i < (A.shape.1 : Int)
      · exact errj hi hjb
      · exact erri hi
    · by_cases hi : 0 ≤ i ∧ i < (A.shape.1 : Int)
      · by_cases hj : 0 ≤ j ∧ j < (B.shape.2 : Int)
        · obtain ⟨e, he⟩ := stage1C_err_mismatch A B hA hB i j hi.1 hi.2 hj.1 hj.2
            (List.range A.shape.2) (fun k hk => List.mem_range.mp hk)
            ⟨B.shape.1, List.mem_range.mpr hmis, le_refl _⟩
          exact ⟨e, compute_cell_C_err_of_stage1 A B i j R vs tracer e he⟩
        · exact errj hi hj
      · exact erri hi
  · intro hi hj hK
    simpa using compute_cell_C_ok A B hA hB i j hi.1 hi.2 hj.1 hj.2 hK R vs tracer hvs []
  · intro hbad
    exact compute_cell_F_err A B hA hB i j hbad R vs tracer
  · intro h1 h2
    simpa using compute_cell_F_ok A B hA hB i j h1 h2 R vs tracer hvs []
  · intro hbad
    exact synthesize_cell_D_err A B hA hB i j hbad problem R vs tracer
  · intro h1 h2
    simpa using synthesize_cell_D_ok A B hA hB i j h1 h2 problem R vs tracer hvs []

/-- A 2×1 right operand whose row count exceeds `wA`'s column count. -/
def cxB : Matrix := ⟨"B", "Problem Statement", ["c1", "c2"], ["d"],
  [[⟨0, 0, "y0", []⟩], [⟨1, 0, "y1", []⟩]]⟩

/-- C5 counterexample: `wA.cols = 1 ≠ 2 = cxB.rows` is a shape mismatch, yet
`compute_cell_C(0, 0, wA, cxB, ...)` does not raise — it completes and makes
external resolution calls (the claim asserts every mismatched-shape input
raises, before any external call). -/
theorem cell_pipeline_mismatch_counterexample :
    wA.shape.2 ≠ cxB.shape.1 ∧
    (compute_cell_C 0 0 wA cxB wEcho "v" false []).1.isOk = true ∧
    (compute_cell_C 0 0 wA cxB wEcho "v" false []).2 ≠ [] := by
  refine ⟨by decide, by decide, by decide⟩

/-- Witness for the amended C5 theorem: at the 1×1 fixtures, an out-of-range
row coordinate raises with an empty call log, and the valid coordinate runs
to completion. -/
theorem cell_pipeline_raise_behavior_witness :
    (∃ e, compute_cell_C (-1) 0 wA wB wEcho "v" false [] = (Except.error e, [])) ∧
    compute_cell_C 0 0 wA wB wEcho "v" false [] =
      (Except.ok (cellC wA wB 0 0 wEcho "v" false), callsC wA wB 0 0 wEcho "v") := by
  have h1 := cell_pipeline_raise_behavior wA wB (by decide) (by decide) wEcho "v" false
    "p" (-1) 0 (by decide) (by decide)
  have h2 := cell_pipeline_raise_behavior wA wB (by decide) (by decide) wEcho "v" false
    "p" 0 0 (by decide) (by decide)
  exact ⟨h1.1 (Or.inl (by decide)), h2.2.1 (by decide) (by decide) (by decide)⟩

end Chirality
